import Mathlib

/-!
Verification development for the wallet-backup SMS transaction parser.

The Go sources are shallowly embedded as executable Lean definitions:
strings are lists of characters (`Str`), Go's `float64` amounts are
modelled exactly in integer hundredths (every numeral the program's
patterns can capture has at most two fraction digits, so the parsed
`float64` values are in an order- and sign-preserving bijection with
these integers, with `0 ↔ 0`), and
each Go `regexp.FindStringSubmatch` call is modelled by a bespoke
backtracking matcher (`M`) with Go's leftmost-first semantics,
greedy/lazy quantifiers and (ASCII) case folding for `(?i)` patterns.
Wall-clock rendering (`time.Unix(...).Format`) is modelled in UTC.
-/

namespace WalletBackup

/-! ## Strings -/

abbrev Str := List Char

def str (s : String) : Str := s.data

/-- Go `strings.ToUpper` per character (ASCII fold; the program's tables
and patterns contain no cased non-ASCII characters). -/
def upc (c : Char) : Char := c.toUpper

/-- Go `strings.ToLower` per character (ASCII fold). -/
def lowc (c : Char) : Char := c.toLower

def upperStr (s : Str) : Str := s.map upc

def lowerStr (s : Str) : Str := s.map lowc

/-- Go `strings.HasPrefix`. -/
def hasPre : Str → Str → Bool
  | _, [] => true
  | [], _ :: _ => false
  | a :: as, b :: bs => a = b && hasPre as bs

/-- Go `strings.Contains` (substring test). -/
def containsStr (hay needle : Str) : Bool :=
  match hay with
  | [] => hasPre [] needle
  | _ :: rest => hasPre hay needle || containsStr rest needle

/-- the set recognised by Go `unicode.IsSpace` (used by `strings.TrimSpace`). -/
def uniSpace (c : Char) : Bool :=
  c = ' ' || c = '\t' || c = '\n' || c = '\x0b' || c = '\x0c' || c = '\r' ||
  c = '\x85' || c = '\xa0' || c = ' ' || (' ' ≤ c && c ≤ ' ') ||
  c = ' ' || c = ' ' || c = ' ' || c = ' ' || c = '　'

/-- Go `strings.TrimSpace`. -/
def trimSpace (s : Str) : Str :=
  ((s.dropWhile uniSpace).reverse.dropWhile uniSpace).reverse

def isDigitCh (c : Char) : Bool := '0' ≤ c && c ≤ '9'
def isAlphaCh (c : Char) : Bool := ('A' ≤ c && c ≤ 'Z') || ('a' ≤ c && c ≤ 'z')
/-- the Go regexp class `\s` = `[\t\n\f\r ]`. -/
def rxSpace (c : Char) : Bool := c = '\t' || c = '\n' || c = '\x0c' || c = '\r' || c = ' '
def digComma (c : Char) : Bool := isDigitCh c || c = ','
def hashStar (c : Char) : Bool := c = '#' || c = '*'

def allDigits (l : Str) : Bool := l.all isDigitCh

def natOfDigits (l : Str) : ℕ := l.foldl (fun n c => n * 10 + (c.toNat - 48)) 0

/-- Go `strings.ReplaceAll(s, ",", "")`. -/
def stripCommas (s : Str) : Str := s.filter (fun c => !(c = ','))

/-- Go `strconv.ParseFloat` restricted to the numerals the extraction
regexes can capture (digits and at most one decimal point after comma
stripping), returned in integer hundredths; the patterns capture either
no fraction digits or exactly two, so the value is exact.  Any other
input makes `ParseFloat` fail and the Go callers ignore the error,
leaving the amount `0`. -/
def parseDec (s : Str) : Int :=
  match breakDot s with
  | (ip, none) =>
    if ip ≠ [] ∧ allDigits ip then ((100 * natOfDigits ip : ℕ) : Int) else 0
  | (ip, some fp) =>
    if (ip ≠ [] ∨ fp ≠ []) ∧ allDigits ip ∧ allDigits fp then
      ((100 * natOfDigits ip + natOfDigits fp * 100 / 10 ^ fp.length : ℕ) : Int)
    else 0
where
  breakDot : Str → Str × Option Str
    | [] => ([], none)
    | c :: r => if c = '.' then ([], some r) else
        let p := breakDot r; (c :: p.1, p.2)

/-- Go `strconv.ParseInt(s, 10, 64)`; `none` models an error return. -/
def parseInt64 (s : Str) : Option Int :=
  match s with
  | [] => none
  | '+' :: rest => core rest false
  | '-' :: rest => core rest true
  | _ => core s false
where
  core (ds : Str) (neg : Bool) : Option Int :=
    if ds = [] then none
    else if allDigits ds then
      let v : Int := if neg then -(natOfDigits ds : Int) else (natOfDigits ds : Int)
      if -(2 ^ 63) ≤ v ∧ v < 2 ^ 63 then some v else none
    else none

/-! ## Regular-expression matching

A matcher (`M`) maps an input suffix to the list of candidate results in
backtracking preference order; a candidate is (captured groups, consumed
text, remaining suffix).  `pfind` takes the first candidate of the
leftmost matching position — exactly what `FindStringSubmatch` returns
for the patterns used by this program. -/

abbrev MRes := List (List Str × Str × Str)
abbrev M := Str → MRes

def pseq (p q : M) : M := fun s =>
  (p s).flatMap fun c1 =>
    (q c1.2.2).map fun c2 => (c1.1 ++ c2.1, c1.2.1 ++ c2.2.1, c2.2.2)

def palt (p q : M) : M := fun s => p s ++ q s

def pchar (f : Char → Bool) : M := fun s =>
  match s with
  | [] => []
  | c :: r => if f c then [([], [c], r)] else []

def plit (lit : Str) : M := fun s =>
  if s.take lit.length = lit then [([], lit, s.drop lit.length)] else []

/-- case-insensitive literal (ASCII folding, as used by the `(?i)` patterns). -/
def plitCI (lit : Str) : M := fun s =>
  if upperStr (s.take lit.length) = upperStr lit then
    [([], s.take lit.length, s.drop lit.length)] else []

/-- greedy star over a character class: longest-first candidates. -/
def starG (f : Char → Bool) : M
  | [] => [([], [], [])]
  | c :: r =>
    (if f c then (starG f r).map (fun x => (x.1, c :: x.2.1, x.2.2)) else []) ++
    [([], [], c :: r)]

/-- lazy `(.*?)` (Go `.` does not match a newline): shortest-first candidates. -/
def dotLazy : M
  | [] => [([], [], [])]
  | c :: r =>
    ([], [], c :: r) ::
    (if c = '\n' then [] else (dotLazy r).map (fun x => (x.1, c :: x.2.1, x.2.2)))

/-- `$` without `(?m)`: end of text. -/
def pend : M := fun s => match s with | [] => [([], [], [])] | _ :: _ => []

def pgroup (p : M) : M := fun s => (p s).map fun x => (x.1 ++ [x.2.1], x.2.1, x.2.2)

/-- optional wrapper around a sub-pattern containing no capture group. -/
def popt0 (p : M) : M := fun s => p s ++ [([], [], s)]

/-- optional wrapper around a sub-pattern containing exactly one capture
group; Go reports an unmatched group as the empty string. -/
def popt1 (p : M) : M := fun s => p s ++ [([([] : Str)], [], s)]

def plusG (f : Char → Bool) : M := pseq (pchar f) (starG f)

/-- leftmost match, first backtracking candidate: `FindStringSubmatch`. -/
def pfind (p : M) : Str → Option (List Str)
  | [] => ((p []).head?).map (fun x => x.1)
  | c :: r =>
    match ((p (c :: r)).head?).map (fun x => x.1) with
    | some caps => some caps
    | none => pfind p r

/-! ## The program's patterns -/

/-- the currency alternative `[A-Za-z]{3}|L\.E\.?|ج\.م|جنيه|جم`
(`lit` is `plit` for case-sensitive patterns, `plitCI` under `(?i)`). -/
def alpha3 : M := pseq (pchar isAlphaCh) (pseq (pchar isAlphaCh) (pchar isAlphaCh))

def curCore (lit : Str → M) : M :=
  palt alpha3 (palt (lit (str "L.E.")) (palt (lit (str "L.E"))
    (palt (lit (str "ج.م")) (palt (lit (str "جنيه")) (lit (str "جم"))))))

def curGroupCI : M := pgroup (curCore plitCI)
def curGroupCS : M := pgroup (curCore plit)

/-- `([\d,]+\.\d{2})`. -/
def amt2 : M :=
  pgroup (pseq (plusG digComma) (pseq (plit (str "."))
    (pseq (pchar isDigitCh) (pchar isDigitCh))))

def dig4 : M :=
  pseq (pchar isDigitCh) (pseq (pchar isDigitCh) (pseq (pchar isDigitCh) (pchar isDigitCh)))

/-- `(?i)(?:credit card|ending with|card|بـ)\s*[#*]*\s*(\d{4})`. -/
def ccPat : M :=
  pseq (palt (plitCI (str "credit card")) (palt (plitCI (str "ending with"))
      (palt (plitCI (str "card")) (plitCI (str "بـ")))))
    (pseq (starG rxSpace) (pseq (starG hashStar) (pseq (starG rxSpace) (pgroup dig4))))

def ccFind (s : Str) : Option Str :=
  match pfind ccPat s with
  | some [d] => some d
  | _ => none

/-- `(?i)charged for\s*(CUR)?\s*([\d,]+\.\d{2})\s*at\s*(.*?)(?:\s+on|\s+at|\. Available)`. -/
def chargedPat : M :=
  pseq (plitCI (str "charged for")) (pseq (starG rxSpace) (pseq (popt1 curGroupCI)
    (pseq (starG rxSpace) (pseq amt2 (pseq (starG rxSpace) (pseq (plitCI (str "at"))
      (pseq (starG rxSpace) (pseq (pgroup dotLazy)
        (palt (pseq (plusG rxSpace) (plitCI (str "on")))
          (palt (pseq (plusG rxSpace) (plitCI (str "at"))) (plitCI (str ". Available"))))))))))))

def chargedFind (s : Str) : Option (Str × Str × Str) :=
  match pfind chargedPat s with
  | some [a, b, c] => some (a, b, c)
  | _ => none

/-- `(?i)(?:refunded|red|rd|رد)\s*(CUR)?\s*([\d,]+\.\d{2})`. -/
def refundPat : M :=
  pseq (palt (plitCI (str "refunded")) (palt (plitCI (str "red"))
      (palt (plitCI (str "rd")) (plitCI (str "رد")))))
    (pseq (starG rxSpace) (pseq (popt1 curGroupCI) (pseq (starG rxSpace) amt2)))

def refundFind (s : Str) : Option (Str × Str) :=
  match pfind refundPat s with
  | some [a, b] => some (a, b)
  | _ => none

/-- `مبلغ\s*([\d,]+\.\d{2})`. -/
def repayPat : M := pseq (plit (str "مبلغ")) (pseq (starG rxSpace) amt2)

def repayFind (s : Str) : Option Str :=
  match pfind repayPat s with
  | some [a] => some a
  | _ => none

/-- `خصم\s*(CUR)?\s*([\d,]+\.\d{2})\s*من.*?عند\s*(.*?)(\s+في|$)`. -/
def debitArPat : M :=
  pseq (plit (str "خصم")) (pseq (starG rxSpace) (pseq (popt1 curGroupCS)
    (pseq (starG rxSpace) (pseq amt2 (pseq (starG rxSpace) (pseq (plit (str "من"))
      (pseq dotLazy (pseq (plit (str "عند")) (pseq (starG rxSpace)
        (pseq (pgroup dotLazy)
          (pgroup (palt (pseq (plusG rxSpace) (plit (str "في"))) pend))))))))))))

def debitArFind (s : Str) : Option (Str × Str × Str) :=
  match pfind debitArPat s with
  | some [a, b, c, _] => some (a, b, c)
  | _ => none

/-- `(?i)charged for\s*(CUR)?\s*([\d,]+\.\d{2})\s*at\s*(.*?)(?:\s+on|\s+at)`. -/
def debitEnPat : M :=
  pseq (plitCI (str "charged for")) (pseq (starG rxSpace) (pseq (popt1 curGroupCI)
    (pseq (starG rxSpace) (pseq amt2 (pseq (starG rxSpace) (pseq (plitCI (str "at"))
      (pseq (starG rxSpace) (pseq (pgroup dotLazy)
        (palt (pseq (plusG rxSpace) (plitCI (str "on")))
          (pseq (plusG rxSpace) (plitCI (str "at"))))))))))))

def debitEnFind (s : Str) : Option (Str × Str × Str) :=
  match pfind debitEnPat s with
  | some [a, b, c] => some (a, b, c)
  | _ => none

/-- `سحب\s*(?:مبلغ)?\s*(CUR)?\s*([\d,]+\.\d{2})`. -/
def withdrawPat : M :=
  pseq (plit (str "سحب")) (pseq (starG rxSpace) (pseq (popt0 (plit (str "مبلغ")))
    (pseq (starG rxSpace) (pseq (popt1 curGroupCS) (pseq (starG rxSpace) amt2)))))

def withdrawFind (s : Str) : Option (Str × Str) :=
  match pfind withdrawPat s with
  | some [a, b] => some (a, b)
  | _ => none

/-- `(?i)(?:amount|for)\s*(CUR)?\s*([\d,]+\.\d{2})`. -/
def amountForPat : M :=
  pseq (palt (plitCI (str "amount")) (plitCI (str "for")))
    (pseq (starG rxSpace) (pseq (popt1 curGroupCI) (pseq (starG rxSpace) amt2)))

def amountForFind (s : Str) : Option (Str × Str) :=
  match pfind amountForPat s with
  | some [a, b] => some (a, b)
  | _ => none

/-- `to\s+(.*?)\s+with reference`. -/
def toRefPat : M :=
  pseq (plit (str "to")) (pseq (plusG rxSpace)
    (pseq (pgroup dotLazy) (pseq (plusG rxSpace) (plit (str "with reference")))))

def toRefFind (s : Str) : Option Str :=
  match pfind toRefPat s with
  | some [a] => some a
  | _ => none

/-- `(?i)credited with IPN Inward for\s*(CUR)?\s*([\d,]+\.\d{2})`. -/
def ipnPat : M :=
  pseq (plitCI (str "credited with IPN Inward for"))
    (pseq (starG rxSpace) (pseq (popt1 curGroupCI) (pseq (starG rxSpace) amt2)))

def ipnFind (s : Str) : Option (Str × Str) :=
  match pfind ipnPat s with
  | some [a, b] => some (a, b)
  | _ => none

/-- `تحويل مبلغ\s*(CUR)?([\d,]+\.\d{2}).*?جهة العمل`. -/
def salPat : M :=
  pseq (plit (str "تحويل مبلغ")) (pseq (starG rxSpace) (pseq (popt1 curGroupCS)
    (pseq amt2 (pseq dotLazy (plit (str "جهة العمل"))))))

def salFind (s : Str) : Option (Str × Str) :=
  match pfind salPat s with
  | some [a, b] => some (a, b)
  | _ => none

/-- `from\s+(.*?)\s+with reference`. -/
def fromRefPat : M :=
  pseq (plit (str "from")) (pseq (plusG rxSpace)
    (pseq (pgroup dotLazy) (pseq (plusG rxSpace) (plit (str "with reference")))))

def fromRefFind (s : Str) : Option Str :=
  match pfind fromRefPat s with
  | some [a] => some a
  | _ => none

/-- `مبلغ\s*(?:(CUR)\s*)?([\d,]+)(?:\s*(CUR))?`. -/
def bmTransferPat : M :=
  pseq (plit (str "مبلغ")) (pseq (starG rxSpace)
    (pseq (popt1 (pseq (pgroup (curCore plit)) (starG rxSpace)))
      (pseq (pgroup (plusG digComma))
        (popt1 (pseq (starG rxSpace) (pgroup (curCore plit)))))))

def bmTransferFind (s : Str) : Option (Str × Str × Str) :=
  match pfind bmTransferPat s with
  | some [a, b, c] => some (a, b, c)
  | _ => none

/-- `(?:مبلغ|amount)\s*(CUR)?\s*([\d,]+\.\d{2})`. -/
def bmPurchasePat : M :=
  pseq (palt (plit (str "مبلغ")) (plit (str "amount")))
    (pseq (starG rxSpace) (pseq (popt1 curGroupCS) (pseq (starG rxSpace) amt2)))

def bmPurchaseFind (s : Str) : Option (Str × Str) :=
  match pfind bmPurchasePat s with
  | some [a, b] => some (a, b)
  | _ => none

/-- `BM (.*?) (?:يوم|on)`. -/
def bmTailPat : M :=
  pseq (plit (str "BM ")) (pseq (pgroup dotLazy)
    (pseq (plit (str " ")) (palt (plit (str "يوم")) (plit (str "on")))))

def bmTailFind (s : Str) : Option Str :=
  match pfind bmTailPat s with
  | some [a] => some a
  | _ => none

/-! ## internal/models -/

def CatFood : Str := str "Food & Drink"
def CatShopping : Str := str "Shopping"
def CatHousing : Str := str "Housing"
def CatTransport : Str := str "Transportation"
def CatVehicle : Str := str "Vehicle"
def CatLife : Str := str "Life & Entertainment"
def CatComms : Str := str "Communication, PC"
def CatFinancial : Str := str "Financial expenses"
def CatIncome : Str := str "Income"
def CatGeneral : Str := str "General"

def TypeExpense : Str := str "Expense"
def TypeIncome : Str := str "Income"

structure Transaction where
  Date : Str
  Payee : Str
  Amount : Int
  Currency : Str
  Type' : Str
  Category : Str
  Note : Str
  TargetGroup : Str
deriving DecidableEq

structure SMS where
  Address : Str
  Body : Str
  Date : Str
deriving DecidableEq

/-! ## internal/utils (helpers.go) -/

def lookupA : List (Str × Str) → Str → Option Str
  | [], _ => none
  | (k, v) :: rest, x => if k = x then some v else lookupA rest x

def currMap : List (Str × Str) :=
  [(str "LE", str "EGP"), (str "L.E", str "EGP"), (str "L.E.", str "EGP"),
   (str "EGP", str "EGP"), (str "ج.م", str "EGP"), (str "جم", str "EGP"),
   (str "جنيه", str "EGP"), (str "USD", str "USD"), (str "EUR", str "EUR"),
   (str "GBP", str "GBP"), (str "TRY", str "TRY"), (str "JPY", str "JPY")]

/-- `utils.NormalizeCurrency`. -/
def NormalizeCurrency (currStr : Str) : Str :=
  if currStr = [] then str "EGP"
  else
    let cleanCurr := upperStr (trimSpace currStr)
    match lookupA currMap cleanCurr with
    | some normalized => normalized
    | none => cleanCurr

def procPres : List Str :=
  [str "PAYMOB-", str "PAYMOB ", str "PAYMOBS ", str "GEIDEA ", str "GEIDEAE ",
   str "FAWRY ", str "FAWRYPF ", str "MY FAWRY", str "Fawry ", str "FawryPF ",
   str "AFS-", str "AFS ", str "POS ", str "NGOV_UNI ", str "BEE ", str "KASHIER "]

/-- the prefix loop of `utils.CleanPayeeName`: strip the first matching
processor marker, then stop (`break`). -/
def stripFirstPre : List Str → Str → Str
  | [], clean => clean
  | p :: rest, clean =>
    if hasPre (upperStr clean) (upperStr p) then trimSpace (clean.drop p.length)
    else stripFirstPre rest clean

/-- the regexp replacement `\s*\d+$` → `""`. -/
def stripTrailDigits (s : Str) : Str :=
  match s.reverse with
  | [] => s
  | c :: _ =>
    if isDigitCh c then ((s.reverse.dropWhile isDigitCh).dropWhile rxSpace).reverse
    else s

/-- `utils.CleanPayeeName`. -/
def CleanPayeeName (payeeRaw : Str) : Str :=
  if payeeRaw = [] then []
  else trimSpace (stripTrailDigits (stripFirstPre procPres payeeRaw))

/-- `utils.Contains`. -/
def Contains (text : Str) (keywords : List Str) : Bool :=
  keywords.any (fun keyword => containsStr text keyword)

/-! ## internal/categorizer -/

def shoppingKeywords : List Str :=
  [str "amazon", str "noon", str "jumia", str "souq", str "shopping", str "zara",
   str "h&m", str "lc waikiki", str "defacto", str "american eagle", str "lachica",
   str "ravin", str "el salama", str "stitch", str "clothes", str "fashion",
   str "shoes", str "concrete", str "town team", str "activ", str "naga",
   str "rich for cloth", str "pronto", str "scarpe", str "scarape", str "tie house",
   str "rose paris", str "b tech", str "b.tech", str "trade line", str "2b",
   str "best buy", str "dubai phone", str "mobile shop", str "el araby",
   str "fresh electric", str "tornado"]

def foodKeywords : List Str :=
  [str "mcdonalds", str "kfc", str "pizza", str "burger", str "buffalo",
   str "primos", str "spectra", str "desoky", str "sandwich", str "elmenus",
   str "talabat", str "breadfast", str "roosters", str "hardees", str "manchow",
   str "willys", str "dhad", str "el dahan", str "sanabel", str "fookotcharia",
   str "krispy", str "cafe", str "costa", str "starbucks", str "cilantro",
   str "tbsp", str "espresso", str "beano", str "cinnabon", str "dunkin",
   str "caribou", str "house of cocoa", str "sale sucre", str "dar el bon",
   str "karak", str "potasta", str "b labn", str "b.labn", str "carrefour",
   str "fathalla", str "market", str "seoudi", str "gomla", str "bim",
   str "kazyon", str "hyper", str "ramadan hamada", str "saood", str "metro",
   str "kheir zaman", str "ragab", str "abu auf", str "kashier", str "elkhalil",
   str "aswak", str "fresh food", str "sun mall", str "grapes"]

def transportKeywords : List Str :=
  [str "uber", str "didi", str "careem", str "indriver", str "transport",
   str "super jet", str "railways", str "go bus", str "swvl", str "pegasus",
   str "fly", str "airline", str "booking", str "flight"]

def vehicleKeywords : List Str :=
  [str "mobil", str "chillout", str "gas station", str "total", str "ola",
   str "master gas", str "adnoc", str "wataniya", str "fuel", str "car service",
   str "tire", str "fit & fix"]

def housingKeywords : List Str :=
  [str "sahl", str "electricity", str "water", str "bill", str "national gas",
   str "natgas", str "town gas", str "petrotrade", str "taqa", str "north cairo"]

def commsKeywords : List Str :=
  [str "vodafone", str "orange", str "etisalat", str "we ", str "telecom",
   str "top up", str "landline", str "we-fv", str "internet", str "fbb",
   str "adsl", str "google", str "microsoft", str "adobe", str "apple",
   str "icloud", str "storage", str "host", str "domain", str "xbox",
   str "playstation", str "steam", str "games", str "mullvad", str "linkedin"]

def lifeKeywords : List Str :=
  [str "netflix", str "spotify", str "osn", str "shahid", str "youtube",
   str "watch it", str "yango", str "vox", str "cinema", str "renessance",
   str "ticket", str "tazkarti", str "kindle", str "audible", str "books",
   str "diwan", str "pharmacy", str "dr.", str "hospital", str "medical",
   str "ezaby", str "elezzaby", str "seif", str "rushdy", str "andalusia",
   str "yosra", str "hany", str "tay"]

def financialKeywords : List Str :=
  [str "atm", str "withdrawal", str "s7b", str "سحب", str "cash", str "fawry",
   str "my fawry", str "fawrypay"]

def finOverrideKeywords : List Str :=
  [str "credit card payment", str "sadaad", str "cib repayment"]

def furnitureKeywords : List Str :=
  [str "ikea", str "homzmart", str "furniture", str "jotun", str "ahfad"]

/-- `categorizer.Categorize`. -/
def Categorize (payee note : Str) (amount : Int) : Str :=
  let cleanPayee := CleanPayeeName payee
  let text := lowerStr (cleanPayee ++ ' ' :: note)
  if 0 < amount then CatIncome
  else if Contains text finOverrideKeywords then CatFinancial
  else if Contains text shoppingKeywords then CatShopping
  else if Contains text furnitureKeywords then CatHousing
  else if Contains text foodKeywords then CatFood
  else if Contains text transportKeywords then CatTransport
  else if Contains text vehicleKeywords then CatVehicle
  else if Contains text housingKeywords then CatHousing
  else if Contains text commsKeywords then CatComms
  else if Contains text lifeKeywords then CatLife
  else if Contains text financialKeywords then CatFinancial
  else CatGeneral

/-! ## internal/parser: CIB (cib.go) -/

/-- `parser.parseCIBCreditCard`. -/
def parseCIBCreditCard (tx0 : Transaction) (body : Str) : Transaction :=
  let tx :=
    if containsStr body (str "charged for") || containsStr body (str "purchasing transaction") then
      match chargedFind body with
      | some (cur, amt, pay) =>
        { tx0 with Currency := NormalizeCurrency cur,
                   Amount := -(parseDec (stripCommas amt)),
                   Payee := CleanPayeeName (trimSpace pay) }
      | none => tx0
    else if containsStr body (str "refunded") || containsStr body (str "rad") ||
        containsStr body (str "رد") then
      if !(containsStr body (str "تم سداد")) then
        let tx1 := { tx0 with Type' := TypeIncome }
        match refundFind body with
        | some (cur, amt) =>
          { tx1 with Currency := NormalizeCurrency cur,
                     Amount := parseDec (stripCommas amt),
                     Payee := str "Refund" }
        | none => tx1
      else tx0
    else tx0
  if containsStr body (str "تم سداد") ||
      (containsStr body (str "payment") && containsStr body (str "received")) then
    let tx2 := { tx with Type' := TypeIncome, Payee := str "CIB Repayment" }
    match repayFind body with
    | some amt => { tx2 with Amount := parseDec (stripCommas amt) }
    | none => tx2
  else tx

/-- `parser.parseCIBCurrentAccount`. -/
def parseCIBCurrentAccount (tx0 : Transaction) (body : Str) : Transaction :=
  if containsStr body (str "debited") || containsStr body (str "charged with") ||
      containsStr body (str "تم تحويل") then
    match amountForFind body with
    | some (cur, amt) =>
      let tx1 := { tx0 with Currency := NormalizeCurrency cur,
                            Amount := -(parseDec (stripCommas amt)) }
      if containsStr body (str "transfer to another account") then
        { tx1 with Payee := str "Transfer to Account / CC", Category := CatFinancial }
      else
        match toRefFind body with
        | some pay => { tx1 with Payee := trimSpace pay }
        | none => { tx1 with Payee := str "Transfer Out" }
    | none => tx0
  else if containsStr body (str "credited") || containsStr body (str "تحويل مبلغ") ||
      containsStr body (str "add") then
    let tx1 := { tx0 with Type' := TypeIncome }
    match ipnFind body with
    | some (cur, amt) =>
      let tx2 := { tx1 with Currency := NormalizeCurrency cur,
                            Amount := parseDec (stripCommas amt) }
      (match fromRefFind body with
       | some pay => { tx2 with Payee := trimSpace pay }
       | none => { tx2 with Payee := str "Transfer In" })
    | none =>
      match salFind body with
      | some (cur, amt) =>
        { tx1 with Currency := NormalizeCurrency cur,
                   Amount := parseDec (stripCommas amt),
                   Payee := str "Salary / Work" }
      | none => tx1
  else tx0

/-- `parser.parseCIBDebit`. -/
def parseCIBDebit (tx0 : Transaction) (body : Str) : Transaction :=
  let tx := { tx0 with TargetGroup := str "CIB_Current_Debit" }
  if containsStr body (str "7759") &&
      (containsStr body (str "charged for") || containsStr body (str "خصم") ||
       containsStr body (str "withdrawal") || containsStr body (str "سحب")) then
    match debitArFind body with
    | some (cur, amt, pay) =>
      { tx with Currency := NormalizeCurrency cur,
                Amount := -(parseDec (stripCommas amt)),
                Payee := CleanPayeeName (trimSpace pay) }
    | none =>
      match debitEnFind body with
      | some (cur, amt, pay) =>
        { tx with Currency := NormalizeCurrency cur,
                  Amount := -(parseDec (stripCommas amt)),
                  Payee := CleanPayeeName (trimSpace pay) }
      | none =>
        match withdrawFind body with
        | some (cur, amt) =>
          { tx with Currency := NormalizeCurrency cur,
                    Amount := -(parseDec (stripCommas amt)),
                    Payee := str "ATM Withdrawal" }
        | none => tx
  else if containsStr body (str "2373") then parseCIBCurrentAccount tx body
  else tx

/-- `parser.parseCIBMessage`. -/
def parseCIBMessage (tx : Transaction) (body : Str) : Transaction :=
  match ccFind body with
  | some cardDigits =>
    if ¬ cardDigits = str "7759" ∧ ¬ cardDigits = str "2373" then
      parseCIBCreditCard
        { tx with TargetGroup := str "CIB_Credit_Card_" ++ cardDigits } body
    else if containsStr body (str "7759") || containsStr body (str "2373") then
      parseCIBDebit tx body
    else tx
  | none =>
    if containsStr body (str "7759") || containsStr body (str "2373") then
      parseCIBDebit tx body
    else tx

/-! ## internal/parser: Banque Misr (banquemisr.go) -/

/-- `parser.parseTransfer`. -/
def parseTransfer (tx0 : Transaction) (body : Str) : Transaction :=
  match bmTransferFind body with
  | some (cur1, amtStr, cur3) =>
    let val := parseDec (stripCommas amtStr)
    let detectedCurr := if cur1 = [] then cur3 else cur1
    let tx1 := { tx0 with Currency := NormalizeCurrency detectedCurr }
    if containsStr body (str "من حساب") then
      { tx1 with Amount := -val, Payee := str "Transfer Out" }
    else if containsStr body (str "الى حساب") then
      { tx1 with Type' := TypeIncome, Amount := val, Payee := str "Transfer In" }
    else tx1
  | none => tx0

/-- `parser.parsePurchase`. -/
def parsePurchase (tx0 : Transaction) (body : Str) : Transaction :=
  match bmPurchaseFind body with
  | some (cur, amt) =>
    let tx1 := { tx0 with Currency := NormalizeCurrency cur,
                          Amount := -(parseDec (stripCommas amt)),
                          Payee := str "Card Purchase" }
    match bmTailFind body with
    | some tail => { tx1 with Payee := trimSpace tail }
    | none => tx1
  | none => tx0

def bmSkipWords : List Str :=
  [str "OTP", str "password", str "تسجيل الدخول", str "code"]

/-- `parser.parseBanqueMisrMessage`. -/
def parseBanqueMisrMessage (tx0 : Transaction) (body : Str) : Transaction :=
  let tx := { tx0 with TargetGroup := str "Banque_Misr" }
  if Contains body bmSkipWords then { tx with TargetGroup := [] }
  else if containsStr body (str "تم تحويل مبلغ") || containsStr body (str "تم اضافة مبلغ") then
    parseTransfer tx body
  else if containsStr body (str "تم الخصم") || containsStr body (str "transaction") then
    parsePurchase tx body
  else tx

/-! ## time handling (strconv.ParseInt + time.Unix + Format, modelled in UTC) -/

def natDigitsAux : ℕ → ℕ → Str
  | 0, _ => []
  | fuel + 1, n =>
    if n = 0 then [] else natDigitsAux fuel (n / 10) ++ [Char.ofNat (48 + n % 10)]

def natDigits (n : ℕ) : Str :=
  if n = 0 then ['0'] else natDigitsAux (n + 1) n

def pad2 (n : ℕ) : Str := (if n < 10 then ['0'] else []) ++ natDigits n

def pad4 (n : ℕ) : Str :=
  (if n < 10 then str "000" else if n < 100 then str "00"
   else if n < 1000 then str "0" else []) ++ natDigits n

/-- Gregorian date of a day count since 1970-01-01. -/
def civilFromDays (z0 : Int) : Int × ℕ × ℕ :=
  let z := z0 + 719468
  let era := Int.fdiv z 146097
  let doe := (z - era * 146097).toNat
  let yoe := (doe - doe / 1461 + doe / 36524 - doe / 146097) / 365
  let doy := doe - (365 * yoe + yoe / 4 - yoe / 100)
  let mp := (5 * doy + 2) / 153
  let d := doy - (153 * mp + 2) / 5 + 1
  let m := if mp < 10 then mp + 3 else mp - 9
  ((yoe : Int) + era * 400 + (if m ≤ 2 then 1 else 0), m, d)

/-- Go `time.Unix(sec, 0).Format("2006-01-02 15:04:05")` (UTC model). -/
def formatDateTime (sec : Int) : Str :=
  let days := Int.fdiv sec 86400
  let sod := (sec - days * 86400).toNat
  let ymd := civilFromDays days
  pad4 ymd.1.toNat ++ '-' :: pad2 ymd.2.1 ++ '-' :: pad2 ymd.2.2 ++
    ' ' :: pad2 (sod / 3600) ++ ':' :: pad2 (sod % 3600 / 60) ++ ':' :: pad2 (sod % 60)

/-- inverse of `civilFromDays`, for the `--from` filter. -/
def daysFromCivil (y : Int) (m d : ℕ) : Int :=
  let y2 := if m ≤ 2 then y - 1 else y
  let era := Int.fdiv y2 400
  let yoe := (y2 - era * 400).toNat
  let doy := (153 * (if m > 2 then m - 3 else m + 9) + 2) / 5 + d - 1
  let doe := yoe * 365 + yoe / 4 - yoe / 100 + doy
  era * 146097 + (doe : Int) - 719468

def daysInMonth (y : Int) (m : ℕ) : ℕ :=
  if m = 2 then
    if (Int.emod y 4 = 0 ∧ ¬ Int.emod y 100 = 0) ∨ Int.emod y 400 = 0 then 29 else 28
  else if m = 4 ∨ m = 6 ∨ m = 9 ∨ m = 11 then 30
  else 31

/-- Go `time.Parse("2006-01-02", s)` reduced to epoch seconds; `none`
models a parse error, the outer `some none` the absent filter. -/
def parseStartDate (s : Str) : Option (Option Int) :=
  match s with
  | [] => some none
  | [y1, y2, y3, y4, h1, m1, m2, h2, d1, d2] =>
    if h1 = '-' ∧ h2 = '-' ∧ allDigits [y1, y2, y3, y4] ∧ allDigits [m1, m2] ∧
        allDigits [d1, d2] then
      let y := (natOfDigits [y1, y2, y3, y4] : Int)
      let m := natOfDigits [m1, m2]
      let d := natOfDigits [d1, d2]
      if 1 ≤ m ∧ m ≤ 12 ∧ 1 ≤ d ∧ d ≤ daysInMonth y m then
        some (some (daysFromCivil y m d * 86400))
      else none
    else none
  | _ => none

/-! ## internal/parser: ParseFile (parser.go) -/

structure ParseState where
  groups : List (Str × List Transaction)
  seen : List Str
deriving DecidableEq

/-- the dedup signature `fmt.Sprintf("%s|%s|%s", sms.Date, sms.Address, sms.Body)`. -/
def keyOf (sms : SMS) : Str := sms.Date ++ '|' :: sms.Address ++ '|' :: sms.Body

/-- `!startDate.IsZero() && dateObj.Before(startDate)`. -/
def beforeStart (startDate : Option Int) (sec : Int) : Bool :=
  match startDate with
  | some sd => sec < sd
  | none => false

/-- the map update `groupedData[tx.TargetGroup] = append(...)` together
with the create-if-absent step; the bucket map is modelled as an
association list in insertion order. -/
def appendTxn : List (Str × List Transaction) → Str → Transaction →
    List (Str × List Transaction)
  | [], g, tx => [(g, [tx])]
  | (k, l) :: rest, g, tx =>
    if k = g then (k, l ++ [tx]) :: rest else (k, l) :: appendTxn rest g tx

def lookupGroup : List (Str × List Transaction) → Str → List Transaction
  | [], _ => []
  | (k, l) :: rest, g => if k = g then l else lookupGroup rest g

def groupKeys (gd : List (Str × List Transaction)) : List Str := gd.map (fun p => p.1)

/-- the per-sender dispatch inside the `ParseFile` loop. -/
def extractTx (address body dateStr : Str) : Transaction :=
  let tx : Transaction :=
    { Date := dateStr, Payee := [], Amount := 0, Currency := str "EGP",
      Type' := TypeExpense, Category := CatGeneral, Note := body, TargetGroup := [] }
  if address = str "CIB" then parseCIBMessage tx body
  else if address = str "Banque Misr" then parseBanqueMisrMessage tx body
  else tx

/-- the categorization and note-rewrite steps of the `ParseFile` loop. -/
def finalizeTx (tx0 : Transaction) : Transaction :=
  let tx :=
    if ¬ tx0.TargetGroup = [] ∧ ¬ tx0.Amount = 0 ∧ tx0.Category = CatGeneral then
      { tx0 with Category := Categorize tx0.Payee tx0.Note tx0.Amount }
    else tx0
  if ¬ tx.Category = CatGeneral then
    { tx with Note := '[' :: tx.Category ++ ']' :: ' ' :: tx.Note }
  else tx

/-- one iteration of the `ParseFile` loop. -/
def processSMS (senderFilter : Str) (startDate : Option Int) (st : ParseState)
    (sms : SMS) : ParseState :=
  if ¬ senderFilter = [] ∧ ¬ sms.Address = senderFilter then st
  else if keyOf sms ∈ st.seen then st
  else
    let seen2 := st.seen ++ [keyOf sms]
    match parseInt64 sms.Date with
    | none => { st with seen := seen2 }
    | some dateMs =>
      let sec := Int.tdiv dateMs 1000
      if beforeStart startDate sec then
        { st with seen := seen2 }
      else
        let tx := extractTx sms.Address sms.Body (formatDateTime sec)
        if ¬ tx.TargetGroup = [] ∧ ¬ tx.Amount = 0 then
          { groups := appendTxn st.groups tx.TargetGroup (finalizeTx tx), seen := seen2 }
        else { st with seen := seen2 }

def initGroups : List (Str × List Transaction) :=
  [(str "CIB_Current_Debit", []), (str "Banque_Misr", [])]

/-- `parser.ParseFile` on the decoded message list; `none` models the
date-filter format error. -/
def ParseFile (backup : List SMS) (senderFilter startDateFilter : Str) :
    Option (List (Str × List Transaction)) :=
  match parseStartDate startDateFilter with
  | none => none
  | some startDate =>
    some (backup.foldl (processSMS senderFilter startDate)
      { groups := initGroups, seen := [] }).groups

/-! ## Derived notions used by the claims -/

/-- the §4.5 contract stated in the spec's words: find the first
matching processor marker in the ordered list, strip exactly it, then
remove one trailing digit run; compared against `CleanPayeeName`. -/
def cleanPayeeNameSpecModel (p : Str) : Str :=
  if p = [] then []
  else
    let c :=
      match procPres.find? (fun q => hasPre (upperStr p) (upperStr q)) with
      | some q => trimSpace (p.drop q.length)
      | none => p
    trimSpace (stripTrailDigits c)

/-- the credit-card charge marker of `parseCIBCreditCard`. -/
def chargeMark (body : Str) : Bool :=
  containsStr body (str "charged for") || containsStr body (str "purchasing transaction")

/-- the repayment marker of `parseCIBCreditCard`. -/
def repayMark (body : Str) : Bool :=
  containsStr body (str "تم سداد") ||
    (containsStr body (str "payment") && containsStr body (str "received"))

/-- the sign/direction agreement required of an emitted transaction. -/
def SignOK (tx : Transaction) : Prop :=
  ¬ tx.Amount = 0 → (tx.Type' = TypeIncome ↔ 0 ≤ tx.Amount)

/-- a CIB credit-card repayment notification (claim C1). -/
def cexRepayBody : Str := str "Your card 1234 تم سداد مبلغ 500.00"

/-- a CIB credit-card body carrying both a charge and a repayment marker
(claim C2). -/
def cexSignBody : Str :=
  str "Your card 4567 charged for EGP 100.00 at Shop on 1/1 payment received"

/-- a CIB charge body that contains the suppression keyword `code`
(claim C7). -/
def cexSuppressBody : Str :=
  str "Your card 4568 charged for EGP 50.00 at Shop on 1/1 code 9999"

def unseenBodyA : Str := str "Your card 9999 charged for EGP 10.00 at Alpha on 1/1"
def unseenBodyB : Str := str "Your card 9999 charged for EGP 20.00 at Beta on 1/2"

/-- a Banque Misr addition notification whose amount token carries a
decimal fraction: the transfer/addition marker, the amount `d.f`, and the
credit phrase (claim C10). -/
def bmTmpl (d f : Str) : Str :=
  str "تم اضافة مبلغ " ++ d ++ '.' :: (f ++ str " الى حساب")

/-- a concrete transaction the C10 witness starts from. -/
def txW : Transaction :=
  { Date := [], Payee := [], Amount := 0, Currency := str "EGP",
    Type' := TypeExpense, Category := [], Note := [], TargetGroup := [] }

/-! ## Generic helper lemmas -/

theorem charOfNat_toNat (n : ℕ) (hv : n.isValidChar) : (Char.ofNat n).toNat = n := by
  simp [Char.ofNat, hv, Char.ofNatAux, Char.toNat, UInt32.toNat]

theorem char_eq_iff_toNat (a b : Char) : a = b ↔ a.toNat = b.toNat := by
  constructor
  · intro h; rw [h]
  · intro h
    apply Char.ext
    apply UInt32.eq_of_toBitVec_eq
    apply BitVec.eq_of_toNat_eq
    exact h

theorem char_le_iff_toNat (a b : Char) : a ≤ b ↔ a.toNat ≤ b.toNat := Iff.rfl

theorem upc_toNat (c : Char) : (upc c).toNat =
    if 97 ≤ c.toNat ∧ c.toNat ≤ 122 then c.toNat - 32 else c.toNat := by
  unfold upc Char.toUpper
  simp only [ge_iff_le]
  by_cases h : 97 ≤ c.toNat ∧ c.toNat ≤ 122
  · rw [if_pos h, if_pos h, charOfNat_toNat _ (Or.inl (by omega))]
  · rw [if_neg h, if_neg h]

theorem upc_upc (c : Char) : upc (upc c) = upc c := by
  rw [char_eq_iff_toNat]
  simp only [upc_toNat]
  split_ifs <;> omega

theorem uniSpace_upc (c : Char) : uniSpace (upc c) = uniSpace c := by
  rw [Bool.eq_iff_iff]
  unfold uniSpace
  simp only [Bool.or_eq_true, Bool.and_eq_true, decide_eq_true_eq,
    char_eq_iff_toNat, char_le_iff_toNat, upc_toNat]
  have e1 : (' ').toNat = 32 := rfl
  have e2 : ('\t').toNat = 9 := rfl
  have e3 : ('\n').toNat = 10 := rfl
  have e4 : ('\x0b').toNat = 11 := rfl
  have e5 : ('\x0c').toNat = 12 := rfl
  have e6 : ('\r').toNat = 13 := rfl
  have e7 : ('\x85').toNat = 133 := rfl
  have e8 : ('\xa0').toNat = 160 := rfl
  have e9 : ('\u1680').toNat = 5760 := rfl
  have e10 : ('\u2000').toNat = 8192 := rfl
  have e11 : ('\u200A').toNat = 8202 := rfl
  have e12 : ('\u2028').toNat = 8232 := rfl
  have e13 : ('\u2029').toNat = 8233 := rfl
  have e14 : ('\u202F').toNat = 8239 := rfl
  have e15 : ('\u205F').toNat = 8287 := rfl
  have e16 : ('\u3000').toNat = 12288 := rfl
  rw [e1, e2, e3, e4, e5, e6, e7, e8, e9, e10, e11, e12, e13, e14, e15, e16]
  by_cases h : 97 ≤ c.toNat ∧ c.toNat ≤ 122
  · rw [if_pos h]
    omega
  · rw [if_neg h]

theorem upperStr_upperStr (s : Str) : upperStr (upperStr s) = upperStr s := by
  unfold upperStr
  rw [List.map_map]
  apply List.map_congr_left
  intro c _
  exact upc_upc c

theorem dropWhile_idem (p : Char → Bool) (l : Str) :
    (l.dropWhile p).dropWhile p = l.dropWhile p := by
  induction l with
  | nil => rfl
  | cons c t ih =>
    by_cases h : p c
    · rw [List.dropWhile_cons_of_pos h, ih]
    · rw [List.dropWhile_cons_of_neg h, List.dropWhile_cons_of_neg h]

theorem dropWhile_of_isPre (p : Char → Bool) (l₁ l₂ : Str) (hpre : l₁ <+: l₂)
    (h : l₂.dropWhile p = l₂) : l₁.dropWhile p = l₁ := by
  cases l₁ with
  | nil => rfl
  | cons c t =>
    obtain ⟨r, hr⟩ := hpre
    subst hr
    by_cases hc : p c
    · exfalso
      rw [List.cons_append, List.dropWhile_cons_of_pos hc] at h
      have h2 := congrArg List.length h
      have h3 := ((t ++ r).dropWhile_suffix p).length_le
      rw [List.length_cons] at h2
      omega
    · rw [List.dropWhile_cons_of_neg hc]


theorem trimSpace_dropWhile (s : Str) :
    (trimSpace s).dropWhile uniSpace = trimSpace s := by
  apply dropWhile_of_isPre _ _ (s.dropWhile uniSpace)
  · show (((s.dropWhile uniSpace).reverse).dropWhile uniSpace).reverse <+:
      s.dropWhile uniSpace
    conv_rhs => rw [← List.reverse_reverse (s.dropWhile uniSpace)]
    exact List.reverse_prefix.mpr (List.dropWhile_suffix uniSpace)
  · exact dropWhile_idem uniSpace s


theorem trimSpace_trimSpace (s : Str) : trimSpace (trimSpace s) = trimSpace s := by
  show ((((trimSpace s).dropWhile uniSpace).reverse).dropWhile uniSpace).reverse =
    trimSpace s
  rw [trimSpace_dropWhile s]
  show (((((s.dropWhile uniSpace).reverse.dropWhile uniSpace).reverse).reverse).dropWhile
      uniSpace).reverse = trimSpace s
  rw [List.reverse_reverse, dropWhile_idem]
  rfl


theorem dropWhile_map_upc (l : Str) :
    List.dropWhile uniSpace (List.map upc l) =
      List.map upc (List.dropWhile uniSpace l) := by
  induction l with
  | nil => rfl
  | cons c t ih =>
    by_cases h : uniSpace c
    · rw [List.map_cons, List.dropWhile_cons_of_pos (by rw [uniSpace_upc]; exact h),
        List.dropWhile_cons_of_pos h, ih]
    · rw [List.map_cons, List.dropWhile_cons_of_neg (by rw [uniSpace_upc]; exact h),
        List.dropWhile_cons_of_neg h, List.map_cons]

theorem trimSpace_upperStr (s : Str) :
    trimSpace (upperStr s) = upperStr (trimSpace s) := by
  unfold trimSpace upperStr
  rw [dropWhile_map_upc, ← List.map_reverse, dropWhile_map_upc, ← List.map_reverse]

/-! ## Claim C4: currency normalizer -/

theorem lookupA_val_fixed (tbl : List (Str × Str)) (u v : Str)
    (hall : ∀ kv ∈ tbl, NormalizeCurrency kv.2 = kv.2)
    (h : lookupA tbl u = some v) : NormalizeCurrency v = v := by
  induction tbl with
  | nil => exact absurd h (by simp [lookupA])
  | cons kv rest ih =>
    obtain ⟨k0, v0⟩ := kv
    rw [lookupA] at h
    by_cases hk : k0 = u
    · rw [if_pos hk] at h
      injection h with h2
      rw [← h2]
      exact hall (k0, v0) (List.mem_cons_self _ _)
    · rw [if_neg hk] at h
      exact ih (fun kv hm => hall kv (List.mem_cons_of_mem _ hm)) h

theorem currMap_val (u v : Str) (h : lookupA currMap u = some v) :
    NormalizeCurrency v = v :=
  lookupA_val_fixed currMap u v (by decide) h

/-- C4 (counterexample): the normalizer is not idempotent on the
whitespace-only token `" "`: it maps it to `""`, which a second
application maps to `"EGP"`. -/
theorem normalizeCurrency_idem_cex :
    NormalizeCurrency (str " ") = [] ∧
    NormalizeCurrency (NormalizeCurrency (str " ")) = str "EGP" ∧
    ¬ NormalizeCurrency (NormalizeCurrency (str " ")) = NormalizeCurrency (str " ") := by
  decide

/-- C4 (amended): `NormalizeCurrency ""` is the home currency `"EGP"`,
and `NormalizeCurrency` is idempotent on every token that is empty or
has a non-whitespace character (equivalently, does not trim to the empty
string); whitespace-only tokens are the sole exception. -/
theorem normalizeCurrency_idem (x : Str) (h : x = [] ∨ ¬ trimSpace x = []) :
    NormalizeCurrency (NormalizeCurrency x) = NormalizeCurrency x ∧
    NormalizeCurrency [] = str "EGP" := by
  refine ⟨?_, by decide⟩
  rcases h with h | h
  · subst h; decide
  · have hx : ¬ x = [] := by
      intro he
      subst he
      exact h rfl
    simp only [NormalizeCurrency, if_neg hx]
    cases hl : lookupA currMap (upperStr (trimSpace x)) with
    | some v => exact currMap_val _ _ hl
    | none =>
      have hune : ¬ upperStr (trimSpace x) = [] := by
        intro he
        rw [upperStr, List.map_eq_nil_iff] at he
        exact h he
      simp only [NormalizeCurrency, if_neg hune]
      have e1 : trimSpace (upperStr (trimSpace x)) = upperStr (trimSpace x) := by
        rw [trimSpace_upperStr, trimSpace_trimSpace]
      rw [e1, upperStr_upperStr, hl]

/-- C4 (witness): idempotence applied at the token `"le"`. -/
theorem normalizeCurrency_idem_witness :
    NormalizeCurrency (NormalizeCurrency (str "le")) = NormalizeCurrency (str "le") ∧
    NormalizeCurrency [] = str "EGP" :=
  normalizeCurrency_idem (str "le") (Or.inr (by decide))

/-! ## Claim C6: counterparty name cleaner -/

theorem stripFirstPre_eq_find (ps : List Str) (p : Str) :
    stripFirstPre ps p =
      (match ps.find? (fun q => hasPre (upperStr p) (upperStr q)) with
       | some q => trimSpace (p.drop q.length)
       | none => p) := by
  induction ps with
  | nil => rfl
  | cons q rest ih =>
    by_cases h : hasPre (upperStr p) (upperStr q)
    · have hf : List.find? (fun r => hasPre (upperStr p) (upperStr r)) (q :: rest) =
          some q := by
        simp only [List.find?, h]
      rw [stripFirstPre, if_pos h, hf]
    · have hf : List.find? (fun r => hasPre (upperStr p) (upperStr r)) (q :: rest) =
          List.find? (fun r => hasPre (upperStr p) (upperStr r)) rest := by
        simp only [List.find?, Bool.not_eq_true] at h ⊢
        rw [h]
      rw [stripFirstPre, if_neg h, hf, ih]

/-- C6: `CleanPayeeName` maps `""` to `""`; on any other input it strips
exactly the first matching processor marker of the ordered static list
and never a second one (witnessed by the equality with the
first-match-only specification, and by `"FAWRY POS Shop"`, whose
remainder starts with the marker `"POS "` yet keeps it), then removes
one trailing digit run with its preceding whitespace and trims; in
particular `"FAWRY Carrefour 1234"` cleans to `"Carrefour"`. -/
theorem cleanPayeeName_spec :
    (∀ p, CleanPayeeName p = cleanPayeeNameSpecModel p) ∧
    CleanPayeeName (str "FAWRY Carrefour 1234") = str "Carrefour" ∧
    CleanPayeeName (str "FAWRY POS Shop") = str "POS Shop" ∧
    CleanPayeeName [] = [] := by
  refine ⟨?_, by decide, by decide, by decide⟩
  intro p
  by_cases hp : p = []
  · rw [CleanPayeeName, if_pos hp, cleanPayeeNameSpecModel, if_pos hp]
  · rw [CleanPayeeName, if_neg hp, cleanPayeeNameSpecModel, if_neg hp,
      stripFirstPre_eq_find]

/-! ## Claim C5: classifier priority -/

/-- C5 (counterexample): a text containing a shopping keyword
(`"amazon"`), a food keyword (`"pizza"`) and a first-tier financial
keyword (`"cib repayment"`) classifies as `Financial expenses`, not
`Shopping`, for a nonpositive amount. -/
theorem categorize_priority_cex :
    Contains (lowerStr (CleanPayeeName [] ++ ' ' :: str "amazon pizza cib repayment"))
      shoppingKeywords = true ∧
    Contains (lowerStr (CleanPayeeName [] ++ ' ' :: str "amazon pizza cib repayment"))
      foodKeywords = true ∧
    Categorize [] (str "amazon pizza cib repayment") (-5) = CatFinancial ∧
    ¬ Categorize [] (str "amazon pizza cib repayment") (-5) = CatShopping := by
  refine ⟨by decide, by decide, by decide, by decide⟩

/-- C5 (amended): the classifier returns `Income` for every positive
amount regardless of the text; for a nonpositive amount whose text
contains a shopping keyword it never returns `Food & Drink`, and it
returns `Shopping` provided the text also avoids the first-tier
financial keywords (`"credit card payment"`, `"sadaad"`,
`"cib repayment"`), which take priority over the shopping group. -/
theorem categorize_priority (payee note : Str) (a : Int) :
    (0 < a → Categorize payee note a = CatIncome) ∧
    (a ≤ 0 →
      Contains (lowerStr (CleanPayeeName payee ++ ' ' :: note)) finOverrideKeywords = false →
      Contains (lowerStr (CleanPayeeName payee ++ ' ' :: note)) shoppingKeywords = true →
      Categorize payee note a = CatShopping) ∧
    (a ≤ 0 →
      Contains (lowerStr (CleanPayeeName payee ++ ' ' :: note)) shoppingKeywords = true →
      ¬ Categorize payee note a = CatFood) := by
  refine ⟨?_, ?_, ?_⟩
  · intro ha
    simp only [Categorize, if_pos ha]
  · intro ha hfin hshop
    simp only [Categorize, if_neg (not_lt.mpr ha), hfin, hshop]
    simp
  · intro ha hshop
    simp only [Categorize, if_neg (not_lt.mpr ha), hshop]
    by_cases hfin : Contains (lowerStr (CleanPayeeName payee ++ ' ' :: note))
        finOverrideKeywords
    · rw [hfin]
      simp only [if_pos]
      decide
    · rw [Bool.not_eq_true] at hfin
      rw [hfin]
      simp only [Bool.false_eq_true, if_neg, if_pos]
      decide

/-- C5 (witness): the amended claim applied at concrete inputs. -/
theorem categorize_priority_witness :
    Categorize [] (str "amazon pizza") (-5) = CatShopping ∧
    Categorize [] (str "whatever") 3 = CatIncome := by
  constructor
  · exact (categorize_priority [] (str "amazon pizza") (-5)).2.1 (by norm_num)
      (by decide) (by decide)
  · exact (categorize_priority [] (str "whatever") 3).1 (by norm_num)

/-! ## Claim C1: repayment kind -/

theorem parseCIBCreditCard_Category (tx : Transaction) (body : Str) :
    (parseCIBCreditCard tx body).Category = tx.Category := by
  simp only [parseCIBCreditCard]
  repeat' split
  all_goals rfl

theorem parseCIBCreditCard_TargetGroup (tx : Transaction) (body : Str) :
    (parseCIBCreditCard tx body).TargetGroup = tx.TargetGroup := by
  simp only [parseCIBCreditCard]
  repeat' split
  all_goals rfl

/-- C1 (counterexample): the concrete repayment message
`cexRepayBody` runs through the full pipeline and its emitted
transaction carries category `Income` — assigned by the generic
classifier because the amount is positive — not the financial-expenses
category, which the extractor never writes. -/
theorem cibRepayment_category_cex :
    (ParseFile [⟨str "CIB", cexRepayBody, str "1700000000000"⟩] [] []).map
      (fun gd => (lookupGroup gd (str "CIB_Credit_Card_1234")).map
        (fun t => t.Category)) = some [CatIncome] ∧
    ¬ CatIncome = CatFinancial := by
  refine ⟨by decide, by decide⟩

/-- C1 (amended): for every CIB credit-card message whose body carries
the repayment marker, the extractor sets `direction = Income` and the
payee label `"CIB Repayment"`, but it does not override the category:
the category field is left exactly as it was (the default `General`),
so the generic classifier still runs downstream — and for the positive
repayment amount that classifier returns `Income`, not a
financial-expenses category. -/
theorem cibRepayment_category (tx : Transaction) (body : Str) (h : repayMark body = true) :
    (parseCIBCreditCard tx body).Type' = TypeIncome ∧
    (parseCIBCreditCard tx body).Payee = str "CIB Repayment" ∧
    (parseCIBCreditCard tx body).Category = tx.Category ∧
    (∀ payee note (a : Int), 0 < a → Categorize payee note a = CatIncome) := by
  have h' : (containsStr body (str "تم سداد") ||
      (containsStr body (str "payment") && containsStr body (str "received"))) = true := h
  refine ⟨?_, ?_, parseCIBCreditCard_Category tx body, ?_⟩
  · simp only [parseCIBCreditCard, h', if_pos]
    split <;> rfl
  · simp only [parseCIBCreditCard, h', if_pos]
    split <;> rfl
  · intro payee note a ha
    simp only [Categorize, if_pos ha]

/-- C1 (witness): the amended claim applied to the concrete repayment
body and a fresh transaction. -/
theorem cibRepayment_category_witness :
    repayMark cexRepayBody = true ∧
    (parseCIBCreditCard
      ⟨[], [], 0, str "EGP", TypeExpense, CatGeneral, cexRepayBody, []⟩
      cexRepayBody).Type' = TypeIncome ∧
    (parseCIBCreditCard
      ⟨[], [], 0, str "EGP", TypeExpense, CatGeneral, cexRepayBody, []⟩
      cexRepayBody).Payee = str "CIB Repayment" ∧
    (parseCIBCreditCard
      ⟨[], [], 0, str "EGP", TypeExpense, CatGeneral, cexRepayBody, []⟩
      cexRepayBody).Category = CatGeneral ∧
    Categorize (str "CIB Repayment") cexRepayBody 500 = CatIncome := by
  have hm : repayMark cexRepayBody = true := by decide
  obtain ⟨h1, h2, h3, h4⟩ := cibRepayment_category
    ⟨[], [], 0, str "EGP", TypeExpense, CatGeneral, cexRepayBody, []⟩ cexRepayBody hm
  exact ⟨hm, h1, h2, h3, h4 (str "CIB Repayment") cexRepayBody 500 (by norm_num)⟩

/-! ## Claim C7: suppression keywords -/

/-- C7 (counterexample): the CIB extractor has no suppression-keyword
check: the concrete CIB charge body containing the configured keyword
`"code"` still emits one transaction. -/
theorem bmSuppression_cex :
    containsStr cexSuppressBody (str "code") = true ∧
    (ParseFile [⟨str "CIB", cexSuppressBody, str "1700000000000"⟩] [] []).map
      (fun gd => (lookupGroup gd (str "CIB_Credit_Card_4568")).length) = some 1 := by
  refine ⟨by decide, by decide⟩

/-- C7 (amended): the suppression-keyword check exists only in the
Banque Misr extractor: a Banque Misr message whose body contains a
configured keyword gets an empty account group and contributes nothing
to the output buckets; CIB messages are not subject to any such check
(see the counterexample). -/
theorem bmSuppression (tx : Transaction) (body : Str)
    (h : Contains body bmSkipWords = true) :
    (parseBanqueMisrMessage tx body).TargetGroup = [] ∧
    (∀ (senderFilter : Str) (startDate : Option Int) (st : ParseState) (sms : SMS),
      sms.Address = str "Banque Misr" → Contains sms.Body bmSkipWords = true →
      (processSMS senderFilter startDate st sms).groups = st.groups) := by
  have key : ∀ (tx2 : Transaction) (b : Str), Contains b bmSkipWords = true →
      (parseBanqueMisrMessage tx2 b).TargetGroup = [] := by
    intro tx2 b hb
    simp only [parseBanqueMisrMessage, hb, if_pos]
  refine ⟨key tx body h, ?_⟩
  intro senderFilter startDate st sms ha hb
  have key2 : ∀ (d : Str), (extractTx sms.Address sms.Body d).TargetGroup = [] := by
    intro d
    simp only [extractTx, ha]
    rw [if_neg (by decide), if_pos trivial]
    exact key _ _ hb
  simp only [processSMS]
  split
  · rfl
  · split
    · rfl
    · split
      · rfl
      · split
        · rfl
        · split
          · rename_i hc
            exact absurd (key2 _) hc.1
          · rfl

/-- C7 (witness): a Banque Misr OTP message suppresses extraction and
leaves the buckets unchanged. -/
theorem bmSuppression_witness :
    Contains (str "OTP is 1234 تم تحويل مبلغ 500 من حساب") bmSkipWords = true ∧
    (parseBanqueMisrMessage
      ⟨[], [], 0, str "EGP", TypeExpense, CatGeneral, [], []⟩
      (str "OTP is 1234 تم تحويل مبلغ 500 من حساب")).TargetGroup = [] := by
  have hb : Contains (str "OTP is 1234 تم تحويل مبلغ 500 من حساب") bmSkipWords = true := by
    decide
  exact ⟨hb, (bmSuppression _ _ hb).1⟩

/-! ## Claim C8: dynamic instrument buckets -/

/-- C8: a CIB message whose extracted four-digit suffix differs from
`7759` and `2373` gets account group `"CIB_Credit_Card_" ++ suffix`
exactly, and the aggregator's update appends each emitted transaction to
the bucket of its group, creating the bucket on first sight (the bucket
holds the old content plus the new transaction, and its name is among
the bucket keys afterwards). -/
theorem cibUnknownSuffix (tx : Transaction) (body d : Str) (h : ccFind body = some d)
    (h1 : ¬ d = str "7759") (h2 : ¬ d = str "2373") :
    (parseCIBMessage tx body).TargetGroup = str "CIB_Credit_Card_" ++ d ∧
    (∀ (gd : List (Str × List Transaction)) (g : Str) (tx2 : Transaction),
      lookupGroup (appendTxn gd g tx2) g = lookupGroup gd g ++ [tx2] ∧
      g ∈ groupKeys (appendTxn gd g tx2)) := by
  constructor
  · simp only [parseCIBMessage, h]
    rw [if_pos ⟨h1, h2⟩]
    exact parseCIBCreditCard_TargetGroup _ _
  · intro gd g tx2
    induction gd with
    | nil =>
      constructor
      · show lookupGroup [(g, [tx2])] g = [] ++ [tx2]
        rw [lookupGroup, if_pos rfl]
        rfl
      · show g ∈ groupKeys [(g, [tx2])]
        simp [groupKeys]
    | cons kv rest ih =>
      obtain ⟨k, l⟩ := kv
      by_cases hk : k = g
      · subst hk
        refine ⟨?_, ?_⟩
        · rw [appendTxn, if_pos rfl, lookupGroup, if_pos rfl, lookupGroup, if_pos rfl]
        · rw [appendTxn, if_pos rfl]
          simp [groupKeys]
      · refine ⟨?_, ?_⟩
        · rw [appendTxn, if_neg hk, lookupGroup, if_neg hk, lookupGroup, if_neg hk]
          exact ih.1
        · rw [appendTxn, if_neg hk]
          simp only [groupKeys, List.map_cons, List.mem_cons]
          exact Or.inr (by simpa [groupKeys] using ih.2)

/-- C8 (witness): the suffix `9999` (two concrete messages) creates and
extends the bucket `CIB_Credit_Card_9999`. -/
theorem cibUnknownSuffix_witness :
    ccFind unseenBodyA = some (str "9999") ∧
    (parseCIBMessage ⟨[], [], 0, str "EGP", TypeExpense, CatGeneral, unseenBodyA, []⟩
      unseenBodyA).TargetGroup = str "CIB_Credit_Card_" ++ str "9999" ∧
    (ParseFile [⟨str "CIB", unseenBodyA, str "1700000000000"⟩,
        ⟨str "CIB", unseenBodyB, str "1700000100000"⟩] [] []).map
      (fun gd => (lookupGroup gd (str "CIB_Credit_Card_9999")).map
        (fun t => t.Payee)) = some [str "Alpha", str "Beta"] ∧
    str "CIB_Credit_Card_9999" ∈ groupKeys
      ((ParseFile [⟨str "CIB", unseenBodyA, str "1700000000000"⟩,
        ⟨str "CIB", unseenBodyB, str "1700000100000"⟩] [] []).getD []) := by
  have hcc : ccFind unseenBodyA = some (str "9999") := by decide
  refine ⟨hcc, ?_, by decide, by decide⟩
  exact (cibUnknownSuffix _ unseenBodyA (str "9999") hcc (by decide) (by decide)).1

/-! ## Claim C2: sign invariant -/

theorem parseDec_nonneg (s : Str) : 0 ≤ parseDec s := by
  unfold parseDec
  split
  · split
    · exact Int.natCast_nonneg _
    · exact le_refl 0
  · split
    · exact Int.natCast_nonneg _
    · exact le_refl 0

theorem signOK_expense_neg (t : Str) (a : Int) (ht : t = TypeExpense) (ha : 0 ≤ a) :
    ¬ (-a) = 0 → (t = TypeIncome ↔ 0 ≤ -a) := by
  intro hne
  rw [ht]
  constructor
  · intro hk
    exact absurd hk (by decide)
  · intro hk
    exact absurd (by omega : (-a : Int) = 0) hne

theorem signOK_parseTransfer (tx : Transaction) (body : Str)
    (h0 : tx.Amount = 0) (ht : tx.Type' = TypeExpense) :
    SignOK (parseTransfer tx body) := by
  unfold SignOK parseTransfer
  split
  · dsimp only
    split
    · exact signOK_expense_neg _ _ ht (parseDec_nonneg _)
    · split
      · intro _
        exact ⟨fun _ => parseDec_nonneg _, fun _ => rfl⟩
      · intro hne
        exact absurd h0 hne
  · intro hne
    exact absurd h0 hne

theorem signOK_parsePurchase (tx : Transaction) (body : Str)
    (h0 : tx.Amount = 0) (ht : tx.Type' = TypeExpense) :
    SignOK (parsePurchase tx body) := by
  unfold SignOK parsePurchase
  split
  · dsimp only
    split
    · exact signOK_expense_neg _ _ ht (parseDec_nonneg _)
    · exact signOK_expense_neg _ _ ht (parseDec_nonneg _)
  · intro hne
    exact absurd h0 hne

theorem signOK_parseBanqueMisr (tx : Transaction) (body : Str)
    (h0 : tx.Amount = 0) (ht : tx.Type' = TypeExpense) :
    SignOK (parseBanqueMisrMessage tx body) := by
  unfold parseBanqueMisrMessage
  dsimp only
  split
  · intro hne
    exact absurd h0 hne
  · split
    · exact signOK_parseTransfer _ _ h0 ht
    · split
      · exact signOK_parsePurchase _ _ h0 ht
      · intro hne
        exact absurd h0 hne

theorem signOK_parseCIBCurrentAccount (tx : Transaction) (body : Str)
    (h0 : tx.Amount = 0) (ht : tx.Type' = TypeExpense) :
    SignOK (parseCIBCurrentAccount tx body) := by
  unfold SignOK parseCIBCurrentAccount
  split
  · split
    · dsimp only
      split
      · exact signOK_expense_neg _ _ ht (parseDec_nonneg _)
      · split
        · exact signOK_expense_neg _ _ ht (parseDec_nonneg _)
        · exact signOK_expense_neg _ _ ht (parseDec_nonneg _)
    · intro hne
      exact absurd h0 hne
  · split
    · dsimp only
      split
      · try dsimp only
        split
        · intro _
          exact ⟨fun _ => parseDec_nonneg _, fun _ => rfl⟩
        · intro _
          exact ⟨fun _ => parseDec_nonneg _, fun _ => rfl⟩
      · split
        · intro _
          exact ⟨fun _ => parseDec_nonneg _, fun _ => rfl⟩
        · intro hne
          exact absurd h0 hne
    · intro hne
      exact absurd h0 hne

theorem signOK_parseCIBDebit (tx : Transaction) (body : Str)
    (h0 : tx.Amount = 0) (ht : tx.Type' = TypeExpense) :
    SignOK (parseCIBDebit tx body) := by
  unfold SignOK parseCIBDebit
  dsimp only
  split
  · split
    · exact signOK_expense_neg _ _ ht (parseDec_nonneg _)
    · split
      · exact signOK_expense_neg _ _ ht (parseDec_nonneg _)
      · split
        · exact signOK_expense_neg _ _ ht (parseDec_nonneg _)
        · intro hne
          exact absurd h0 hne
  · split
    · exact signOK_parseCIBCurrentAccount _ _ h0 ht
    · intro hne
      exact absurd h0 hne

theorem signOK_parseCIBCreditCard (tx : Transaction) (body : Str)
    (h0 : tx.Amount = 0) (ht : tx.Type' = TypeExpense)
    (hnc : ¬(chargeMark body = true ∧ repayMark body = true)) :
    SignOK (parseCIBCreditCard tx body) := by
  unfold SignOK parseCIBCreditCard
  dsimp only
  split
  · rename_i hr
    have hc : ¬ (containsStr body (str "charged for") ||
        containsStr body (str "purchasing transaction")) = true :=
      fun hcc => hnc ⟨hcc, hr⟩
    split
    · intro _
      exact ⟨fun _ => parseDec_nonneg _, fun _ => rfl⟩
    · intro hne
      refine ⟨fun _ => ?_, fun _ => rfl⟩
      try dsimp only
      rw [if_neg hc]
      repeat' split
      all_goals try dsimp only
      all_goals first
        | exact parseDec_nonneg _
        | omega
  · rename_i hr
    rw [Bool.not_eq_true] at hr
    have hs : containsStr body (str "تم سداد") = false := by
      cases hsc : containsStr body (str "تم سداد") with
      | false => rfl
      | true =>
        rw [hsc] at hr
        simp at hr
    split
    · split
      · exact signOK_expense_neg _ _ ht (parseDec_nonneg _)
      · intro hne
        exact absurd h0 hne
    · split
      · rw [hs, if_pos (by decide)]
        split
        · intro _
          exact ⟨fun _ => parseDec_nonneg _, fun _ => rfl⟩
        · intro hne
          exact absurd h0 hne
      · intro hne
        exact absurd h0 hne

theorem signOK_parseCIBMessage (tx : Transaction) (body : Str)
    (h0 : tx.Amount = 0) (ht : tx.Type' = TypeExpense)
    (hnc : ¬(chargeMark body = true ∧ repayMark body = true)) :
    SignOK (parseCIBMessage tx body) := by
  unfold parseCIBMessage
  split
  · split
    · exact signOK_parseCIBCreditCard _ _ h0 ht hnc
    · split
      · exact signOK_parseCIBDebit _ _ h0 ht
      · intro hne
        exact absurd h0 hne
  · split
    · exact signOK_parseCIBDebit _ _ h0 ht
    · intro hne
      exact absurd h0 hne

theorem finalizeTx_Amount (tx : Transaction) : (finalizeTx tx).Amount = tx.Amount := by
  simp only [finalizeTx]
  repeat' split
  all_goals rfl

theorem finalizeTx_Type (tx : Transaction) : (finalizeTx tx).Type' = tx.Type' := by
  simp only [finalizeTx]
  repeat' split
  all_goals rfl

theorem finalizeTx_TargetGroup (tx : Transaction) :
    (finalizeTx tx).TargetGroup = tx.TargetGroup := by
  simp only [finalizeTx]
  repeat' split
  all_goals rfl

/-- C2 (counterexample): the crafted CIB credit-card body `cexSignBody`
carries both a charge marker and a repayment marker; its emitted
transaction has `direction = Income` together with the negative amount
`-100.00` (`-10000` hundredths), refuting the claimed equivalence. -/
theorem sign_invariant_cex :
    (ParseFile [⟨str "CIB", cexSignBody, str "1700000000000"⟩] [] []).map
      (fun gd => (lookupGroup gd (str "CIB_Credit_Card_4567")).map
        (fun t => (t.Type', t.Amount))) = some [(TypeIncome, -10000)] ∧
    ¬((TypeIncome : Str) = TypeIncome ↔ (0 : Int) ≤ -10000) := by
  refine ⟨by decide, by decide⟩

/-- C2 (amended): for every message the pipeline's candidate transaction
(after extraction, categorization and note rewriting) satisfies
`direction = Income ↔ amount ≥ 0` whenever it would be emitted
(non-empty account group, non-zero amount) — except possibly for CIB
credit-card bodies carrying both a charge marker (`"charged for"` /
`"purchasing transaction"`) and a repayment marker (`"تم سداد"` or
`"payment"`+`"received"`), where the repayment branch flips the
direction to Income while keeping the charge's negative amount (see the
counterexample). -/
theorem sign_invariant (address body dateStr : Str)
    (hnc : ¬(chargeMark body = true ∧ repayMark body = true))
    (h1 : ¬ (finalizeTx (extractTx address body dateStr)).TargetGroup = [])
    (hne : ¬ (finalizeTx (extractTx address body dateStr)).Amount = 0) :
    (finalizeTx (extractTx address body dateStr)).Type' = TypeIncome ↔
      0 ≤ (finalizeTx (extractTx address body dateStr)).Amount := by
  have hsign : SignOK (extractTx address body dateStr) := by
    unfold extractTx
    dsimp only
    by_cases ha : address = str "CIB"
    · rw [if_pos ha]
      exact signOK_parseCIBMessage _ _ rfl rfl hnc
    · rw [if_neg ha]
      by_cases hb : address = str "Banque Misr"
      · rw [if_pos hb]
        exact signOK_parseBanqueMisr _ _ rfl rfl
      · rw [if_neg hb]
        intro hne2
        exact absurd rfl hne2
  rw [finalizeTx_Type, finalizeTx_Amount]
  rw [finalizeTx_Amount] at hne
  exact hsign hne

/-- C2 (witness): the amended sign invariant applied to a concrete CIB
charge message (an expense of 10.00 at Alpha). -/
theorem sign_invariant_witness :
    (finalizeTx (extractTx (str "CIB") unseenBodyA (str "d"))).Type' = TypeIncome ↔
      0 ≤ (finalizeTx (extractTx (str "CIB") unseenBodyA (str "d"))).Amount :=
  sign_invariant (str "CIB") unseenBodyA (str "d") (by decide) (by decide) (by decide)

/-! ## Claim C3: dedup idempotence -/

theorem processSMS_seen_mono (sf : Str) (sd : Option Int) (st : ParseState) (m : SMS)
    (k : Str) (h : k ∈ st.seen) : k ∈ (processSMS sf sd st m).seen := by
  unfold processSMS
  dsimp only
  repeat' split
  all_goals first
    | exact h
    | exact List.mem_append_left _ h

theorem processSMS_key_seen (sf : Str) (sd : Option Int) (st : ParseState) (m : SMS)
    (hpass : ¬(¬ sf = [] ∧ ¬ m.Address = sf)) :
    keyOf m ∈ (processSMS sf sd st m).seen := by
  unfold processSMS
  rw [if_neg hpass]
  by_cases hs : keyOf m ∈ st.seen
  · rw [if_pos hs]
    exact hs
  · rw [if_neg hs]
    dsimp only
    repeat' split
    all_goals simp

theorem processSMS_of_seen (sf : Str) (sd : Option Int) (st : ParseState) (m : SMS)
    (h : keyOf m ∈ st.seen ∨ (¬ sf = [] ∧ ¬ m.Address = sf)) :
    processSMS sf sd st m = st := by
  unfold processSMS
  by_cases hf : ¬ sf = [] ∧ ¬ m.Address = sf
  · rw [if_pos hf]
  · rw [if_neg hf]
    have hs : keyOf m ∈ st.seen := h.resolve_right hf
    rw [if_pos hs]

theorem foldl_seen_mono (sf : Str) (sd : Option Int) (l : List SMS) (st : ParseState)
    (k : Str) (h : k ∈ st.seen) :
    k ∈ (List.foldl (processSMS sf sd) st l).seen := by
  induction l generalizing st with
  | nil => exact h
  | cons x rest ih =>
    rw [List.foldl_cons]
    exact ih _ (processSMS_seen_mono sf sd st x k h)

theorem foldl_key_seen (sf : Str) (sd : Option Int) (l : List SMS) (st : ParseState)
    (m : SMS) (hm : m ∈ l) (hpass : ¬(¬ sf = [] ∧ ¬ m.Address = sf)) :
    keyOf m ∈ (List.foldl (processSMS sf sd) st l).seen := by
  induction l generalizing st with
  | nil => cases hm
  | cons x rest ih =>
    rw [List.foldl_cons]
    rcases List.mem_cons.mp hm with he | hm2
    · subst he
      exact foldl_seen_mono sf sd rest _ _ (processSMS_key_seen sf sd st m hpass)
    · exact ih _ hm2

/-- C3: processing an input sequence in which a message occurs a second
time (identical sender, body and timestamp string, hence an identical
dedup signature) produces exactly the same grouped output as processing
the sequence without the repeated occurrence: the duplicate contributes
nothing, for every sender/date filter and every surrounding sequence. -/
theorem dedup_idem (sf sdf : Str) (p q : List SMS) (m : SMS) (hm : m ∈ p) :
    ParseFile (p ++ m :: q) sf sdf = ParseFile (p ++ q) sf sdf := by
  unfold ParseFile
  cases hd : parseStartDate sdf with
  | none => rfl
  | some sd =>
    dsimp only
    have key : List.foldl (processSMS sf sd) { groups := initGroups, seen := [] }
        (p ++ m :: q) =
        List.foldl (processSMS sf sd) { groups := initGroups, seen := [] } (p ++ q) := by
      rw [List.foldl_append, List.foldl_append, List.foldl_cons]
      by_cases hf : ¬ sf = [] ∧ ¬ m.Address = sf
      · rw [processSMS_of_seen sf sd _ m (Or.inr hf)]
      · rw [processSMS_of_seen sf sd _ m
          (Or.inl (foldl_key_seen sf sd p _ m hm hf))]
    rw [key]

/-- C3 (witness): a concrete backup with the same message twice parses
to the same buckets as the backup with it once. -/
theorem dedup_idem_witness :
    ParseFile [⟨str "CIB", unseenBodyA, str "1700000000000"⟩,
        ⟨str "CIB", unseenBodyA, str "1700000000000"⟩] [] [] =
      ParseFile [⟨str "CIB", unseenBodyA, str "1700000000000"⟩] [] [] :=
  dedup_idem [] [] [⟨str "CIB", unseenBodyA, str "1700000000000"⟩] []
    ⟨str "CIB", unseenBodyA, str "1700000000000"⟩ (List.mem_singleton.mpr rfl)

/-! ## Claim C10: string and character-class lemmas -/

theorem class_ne (g : Char → Bool) (x c : Char) (hx : g x = true) (hc : g c = false) :
    ¬ x = c := by
  intro he
  rw [he, hc] at hx
  cases hx

theorem hasPre_mem (hay n : Str) (h : hasPre hay n = true) : ∀ y ∈ n, y ∈ hay := by
  induction hay generalizing n with
  | nil =>
    cases n with
    | nil => intro y hy; cases hy
    | cons b bs => cases h
  | cons a as ih =>
    cases n with
    | nil => intro y hy; cases hy
    | cons b bs =>
      rw [hasPre, Bool.and_eq_true, decide_eq_true_eq] at h
      intro y hy
      rcases List.mem_cons.mp hy with he | hm
      · subst he
        rw [← h.1]
        exact List.mem_cons_self _ _
      · exact List.mem_cons_of_mem _ (ih bs h.2 y hm)

theorem containsStr_eq_false_of_needle_char (hay n : Str) (c : Char)
    (hc : c ∈ n) (h : ∀ x ∈ hay, ¬ x = c) : containsStr hay n = false := by
  induction hay with
  | nil =>
    cases n with
    | nil => cases hc
    | cons b bs => rfl
  | cons x r ih =>
    show (hasPre (x :: r) n || containsStr r n) = false
    rw [ih (fun y hy => h y (List.mem_cons_of_mem _ hy)), Bool.or_false]
    cases hp : hasPre (x :: r) n with
    | false => rfl
    | true => exact absurd rfl (h c (hasPre_mem _ _ hp c hc) )

theorem containsStr_of_hasPre (hay n : Str) (h : hasPre hay n = true) :
    containsStr hay n = true := by
  cases hay with
  | nil => exact h
  | cons x r =>
    show (hasPre (x :: r) n || containsStr r n) = true
    rw [h, Bool.true_or]

theorem containsStr_suffix (s t n : Str) (h : containsStr t n = true) :
    containsStr (s ++ t) n = true := by
  induction s with
  | nil => exact h
  | cons c r ih =>
    show (hasPre (c :: (r ++ t)) n || containsStr (r ++ t) n) = true
    rw [ih, Bool.or_true]

theorem digComma_toNat (c : Char) (h : digComma c = true) :
    c.toNat = 44 ∨ (48 ≤ c.toNat ∧ c.toNat ≤ 57) := by
  unfold digComma isDigitCh at h
  simp only [Bool.or_eq_true, Bool.and_eq_true, decide_eq_true_eq,
    char_le_iff_toNat, char_eq_iff_toNat] at h
  have e1 : ('0').toNat = 48 := rfl
  have e2 : ('9').toNat = 57 := rfl
  have e3 : (',').toNat = 44 := rfl
  rw [e1, e2, e3] at h
  omega

theorem isDigitCh_toNat (c : Char) (h : isDigitCh c = true) :
    48 ≤ c.toNat ∧ c.toNat ≤ 57 := by
  unfold isDigitCh at h
  simp only [Bool.and_eq_true, decide_eq_true_eq, char_le_iff_toNat] at h
  have e1 : ('0').toNat = 48 := rfl
  have e2 : ('9').toNat = 57 := rfl
  rw [e1] at h
  rw [e2] at h
  exact h

theorem digComma_of_isDigit (c : Char) (h : isDigitCh c = true) : digComma c = true := by
  unfold digComma
  rw [h, Bool.true_or]

theorem char_ne_of_toNat (c : Char) (a : Char) (h : ¬ c.toNat = a.toNat) : ¬ c = a := by
  intro he
  rw [char_eq_iff_toNat] at he
  exact h he

theorem digComma_facts (c : Char) (h : digComma c = true) :
    isAlphaCh c = false ∧ rxSpace c = false ∧ ¬ c = 'L' ∧ ¬ c = 'ج' := by
  have hn := digComma_toNat c h
  refine ⟨?_, ?_, ?_, ?_⟩
  · rw [Bool.eq_false_iff]
    intro ha
    unfold isAlphaCh at ha
    simp only [Bool.or_eq_true, Bool.and_eq_true, decide_eq_true_eq,
      char_le_iff_toNat] at ha
    have e1 : ('A').toNat = 65 := rfl
    have e2 : ('Z').toNat = 90 := rfl
    have e3 : ('a').toNat = 97 := rfl
    have e4 : ('z').toNat = 122 := rfl
    rw [e1, e2, e3, e4] at ha
    omega
  · rw [Bool.eq_false_iff]
    intro ha
    unfold rxSpace at ha
    simp only [Bool.or_eq_true, decide_eq_true_eq, char_eq_iff_toNat] at ha
    have e1 : ('\t').toNat = 9 := rfl
    have e2 : ('\n').toNat = 10 := rfl
    have e3 : ('\x0c').toNat = 12 := rfl
    have e4 : ('\r').toNat = 13 := rfl
    have e5 : (' ').toNat = 32 := rfl
    rw [e1, e2, e3, e4, e5] at ha
    omega
  · exact char_ne_of_toNat c 'L' (by
      have : ('L').toNat = 76 := rfl
      rw [this]
      omega)
  · exact char_ne_of_toNat c 'ج' (by
      have : ('ج').toNat = 1580 := rfl
      rw [this]
      omega)

/-- every character of the Banque Misr template is either a digit/comma
of the amount token or one of the fixed characters of the template. -/
theorem tmpl_no_char (d f : Str) (hd : ∀ c ∈ d, digComma c = true)
    (hf : ∀ c ∈ f, isDigitCh c = true) (c : Char) (hc : digComma c = false)
    (hlit : ¬ c ∈ str "تم اضافة مبلغ الى حساب. ") :
    ∀ x ∈ bmTmpl d f, ¬ x = c := by
  intro x hx he
  subst he
  unfold bmTmpl at hx
  simp only [List.mem_append, List.mem_cons] at hx
  rcases hx with (h1 | h2) | (h3 | (h4 | h5))
  · exact hlit ((by decide :
      ∀ y ∈ str "تم اضافة مبلغ ", y ∈ str "تم اضافة مبلغ الى حساب. ") x h1)
  · exact absurd (hd x h2) (by rw [hc]; exact Bool.false_ne_true)
  · subst h3
    exact hlit (by decide)
  · exact absurd (digComma_of_isDigit x (hf x h4)) (by rw [hc]; exact Bool.false_ne_true)
  · exact hlit ((by decide :
      ∀ y ∈ str " الى حساب", y ∈ str "تم اضافة مبلغ الى حساب. ") x h5)

/-! ## Claim C10: matcher-evaluation lemmas -/

theorem pfind_cons_none (p : M) (c : Char) (r : Str) (h : p (c :: r) = []) :
    pfind p (c :: r) = pfind p r := by
  show (match ((p (c :: r)).head?).map (fun x => x.1) with
    | some caps => some caps
    | none => pfind p r) = pfind p r
  rw [h]
  rfl

theorem pfind_cons_some (p : M) (c : Char) (r : Str) (x : List Str × Str × Str)
    (tl : MRes) (h : p (c :: r) = x :: tl) : pfind p (c :: r) = some x.1 := by
  show (match ((p (c :: r)).head?).map (fun y => y.1) with
    | some caps => some caps
    | none => pfind p r) = some x.1
  rw [h]
  rfl

theorem pseq_nil_left (p q : M) (s : Str) (h : p s = []) : pseq p q s = [] := by
  unfold pseq
  rw [h]
  rfl

theorem pseq_head (p q : M) (s : Str) (x y : List Str × Str × Str)
    (tl tl2 : MRes) (hp : p s = x :: tl) (hq : q x.2.2 = y :: tl2) :
    ∃ tl3, pseq p q s =
      (x.1 ++ y.1, x.2.1 ++ y.2.1, y.2.2) :: tl3 := by
  unfold pseq
  rw [hp]
  refine ⟨(tl2.map fun c2 => (x.1 ++ c2.1, x.2.1 ++ c2.2.1, c2.2.2)) ++
    (tl.flatMap fun c1 => (q c1.2.2).map fun c2 =>
      (c1.1 ++ c2.1, c1.2.1 ++ c2.2.1, c2.2.2)), ?_⟩
  show ((q x.2.2).map fun c2 => (x.1 ++ c2.1, x.2.1 ++ c2.2.1, c2.2.2)) ++
    (tl.flatMap fun c1 => (q c1.2.2).map fun c2 =>
      (c1.1 ++ c2.1, c1.2.1 ++ c2.2.1, c2.2.2)) = _
  rw [hq]
  rfl

theorem pchar_pos (f : Char → Bool) (c : Char) (r : Str) (h : f c = true) :
    pchar f (c :: r) = [([], [c], r)] := by
  show (if f c = true then [(([] : List Str), [c], r)] else []) = _
  rw [h]
  rfl

theorem pchar_neg (f : Char → Bool) (c : Char) (r : Str) (h : f c = false) :
    pchar f (c :: r) = [] := by
  show (if f c = true then [(([] : List Str), [c], r)] else []) = _
  rw [h]
  rfl

theorem plit_head_ne (lit : Str) (a : Char) (lr : Str) (c : Char) (r : Str)
    (hlit : lit = a :: lr) (h : ¬ c = a) : plit lit (c :: r) = [] := by
  subst hlit
  unfold plit
  rw [if_neg]
  intro heq
  rw [List.length_cons, List.take_succ_cons] at heq
  injection heq with h1 h2
  exact h h1

theorem starG_cons_neg (f : Char → Bool) (c : Char) (r : Str) (h : f c = false) :
    starG f (c :: r) = [([], [], c :: r)] := by
  rw [starG, h]
  rfl

theorem starG_cons_pos (f : Char → Bool) (c : Char) (r : Str) (h : f c = true) :
    starG f (c :: r) =
      ((starG f r).map fun x => (x.1, c :: x.2.1, x.2.2)) ++ [([], [], c :: r)] := by
  rw [starG, h]
  rfl

theorem starG_append_head (f : Char → Bool) (l : Str) (b : Char) (t : Str)
    (hl : ∀ c ∈ l, f c = true) (hb : f b = false) :
    ∃ tl, starG f (l ++ b :: t) = ([], l, b :: t) :: tl := by
  induction l with
  | nil =>
    refine ⟨[], ?_⟩
    rw [List.nil_append, starG_cons_neg f b t hb]
  | cons c l2 ih =>
    obtain ⟨tl, htl⟩ := ih (fun x hx => hl x (List.mem_cons_of_mem _ hx))
    refine ⟨((tl.map fun x => (x.1, c :: x.2.1, x.2.2))) ++
      [([], [], c :: (l2 ++ b :: t))], ?_⟩
    rw [List.cons_append, starG_cons_pos f c _ (hl c (List.mem_cons_self _ _)), htl]
    rfl

theorem pgroup_head (p : M) (s : Str) (x : List Str × Str × Str) (tl : MRes)
    (h : p s = x :: tl) :
    pgroup p s = (x.1 ++ [x.2.1], x.2.1, x.2.2) ::
      (tl.map fun y => (y.1 ++ [y.2.1], y.2.1, y.2.2)) := by
  unfold pgroup
  rw [h]
  rfl

theorem pgroup_nil (p : M) (s : Str) (h : p s = []) : pgroup p s = [] := by
  unfold pgroup
  rw [h]
  rfl

theorem popt1_nil (p : M) (s : Str) (h : p s = []) :
    popt1 p s = [([([] : Str)], [], s)] := by
  unfold popt1
  rw [h]
  rfl

/-- the currency alternative fails on any non-letter head other than
`L`/`ج`. -/
theorem curCore_head_nil (c : Char) (r : Str) (ha : isAlphaCh c = false)
    (hL : ¬ c = 'L') (hj : ¬ c = 'ج') : curCore plit (c :: r) = [] := by
  have h1 : alpha3 (c :: r) = [] :=
    pseq_nil_left _ _ _ (pchar_neg _ _ _ ha)
  have h2 : plit (str "L.E.") (c :: r) = [] := plit_head_ne _ 'L' (str ".E.") _ _ rfl hL
  have h3 : plit (str "L.E") (c :: r) = [] := plit_head_ne _ 'L' (str ".E") _ _ rfl hL
  have h4 : plit (str "ج.م") (c :: r) = [] := plit_head_ne _ 'ج' (str ".م") _ _ rfl hj
  have h5 : plit (str "جنيه") (c :: r) = [] := plit_head_ne _ 'ج' (str "نيه") _ _ rfl hj
  have h6 : plit (str "جم") (c :: r) = [] := plit_head_ne _ 'ج' (str "م") _ _ rfl hj
  unfold curCore palt
  rw [h1, h2, h3, h4, h5, h6]
  rfl

theorem curCore_digComma_nil (c : Char) (r : Str) (h : digComma c = true) :
    curCore plit (c :: r) = [] := by
  obtain ⟨ha, _, hL, hj⟩ := digComma_facts c h
  exact curCore_head_nil c r ha hL hj

theorem pseq_single_nil (p q : M) (s : Str) (x : List Str × Str × Str)
    (hp : p s = [x]) (hq : q x.2.2 = []) : pseq p q s = [] := by
  unfold pseq
  rw [hp]
  show ((q x.2.2).map fun c2 => (x.1 ++ c2.1, x.2.1 ++ c2.2.1, c2.2.2)) ++
    (([] : MRes).flatMap fun c1 => (q c1.2.2).map fun c2 =>
      (c1.1 ++ c2.1, c1.2.1 ++ c2.2.1, c2.2.2)) = []
  rw [hq]
  rfl

theorem popt1_tail_cur (t : Str) :
    popt1 (pseq (starG rxSpace) (pgroup (curCore plit))) ('.' :: t) =
      [([([] : Str)], [], '.' :: t)] := by
  apply popt1_nil
  apply pseq_single_nil _ _ _ (([], [], '.' :: t))
  · exact starG_cons_neg rxSpace '.' t (by decide)
  · exact pgroup_nil _ _ (curCore_head_nil '.' t (by decide) (by decide) (by decide))

theorem popt1_lead_cur (c : Char) (t : Str) (h : digComma c = true) :
    popt1 (pseq (pgroup (curCore plit)) (starG rxSpace)) (c :: t) =
      [([([] : Str)], [], c :: t)] := by
  apply popt1_nil
  apply pseq_nil_left
  exact pgroup_nil _ _ (curCore_digComma_nil c t h)

theorem plusG_head (c : Char) (l t : Str) (b : Char)
    (hc : digComma c = true) (hl : ∀ y ∈ l, digComma y = true)
    (hb : digComma b = false) :
    ∃ tl, plusG digComma (c :: (l ++ b :: t)) = ([], c :: l, b :: t) :: tl := by
  obtain ⟨tl2, h2⟩ := starG_append_head digComma l b t hl hb
  obtain ⟨tl3, h3⟩ := pseq_head (pchar digComma) (starG digComma) _
    ([], [c], l ++ b :: t) ([], l, b :: t) [] tl2
    (pchar_pos digComma c _ hc) h2
  exact ⟨tl3, h3⟩

theorem starG_space_cons (c : Char) (t : Str) (hrx : rxSpace c = false) :
    starG rxSpace (' ' :: c :: t) =
      ([], [' '], c :: t) :: [([], [], ' ' :: c :: t)] := by
  rw [starG_cons_pos rxSpace ' ' (c :: t) (by decide), starG_cons_neg rxSpace c t hrx]
  rfl

/-- the Banque Misr transfer pattern on the template: the whole amount
group captured is exactly the digit/comma run before the decimal point,
and both currency groups are empty. -/
theorem bmTransferFind_tmpl (d f : Str) (hne : ¬ d = [])
    (hd : ∀ c ∈ d, digComma c = true) :
    bmTransferFind (bmTmpl d f) = some ([], d, []) := by
  obtain ⟨d₀, d', rfl⟩ : ∃ d₀ d', d = d₀ :: d' := by
    cases d with
    | nil => exact absurd rfl hne
    | cons a b => exact ⟨a, b, rfl⟩
  have hd₀ : digComma d₀ = true := hd d₀ (List.mem_cons_self _ _)
  have hrx : rxSpace d₀ = false := (digComma_facts d₀ hd₀).2.1
  have h5 : popt1 (pseq (starG rxSpace) (pgroup (curCore plit)))
      ('.' :: (f ++ str " الى حساب")) =
      [([([] : Str)], [], '.' :: (f ++ str " الى حساب"))] :=
    popt1_tail_cur _
  obtain ⟨tlp, hp4⟩ := plusG_head d₀ d' (f ++ str " الى حساب") '.' hd₀
    (fun y hy => hd y (List.mem_cons_of_mem _ hy)) (by decide)
  have hg4 := pgroup_head (plusG digComma) _ _ _ hp4
  obtain ⟨tl45, h45⟩ := pseq_head (pgroup (plusG digComma))
    (popt1 (pseq (starG rxSpace) (pgroup (curCore plit)))) _
    ([d₀ :: d'], d₀ :: d', '.' :: (f ++ str " الى حساب"))
    (([([] : Str)]), [], '.' :: (f ++ str " الى حساب")) _ [] hg4 h5
  have h3 : popt1 (pseq (pgroup (curCore plit)) (starG rxSpace))
      (d₀ :: (d' ++ '.' :: (f ++ str " الى حساب"))) =
      [([([] : Str)], [], d₀ :: (d' ++ '.' :: (f ++ str " الى حساب")))] :=
    popt1_lead_cur d₀ _ hd₀
  obtain ⟨tl345, h345⟩ := pseq_head
    (popt1 (pseq (pgroup (curCore plit)) (starG rxSpace)))
    (pseq (pgroup (plusG digComma))
      (popt1 (pseq (starG rxSpace) (pgroup (curCore plit))))) _
    ([([] : Str)], [], d₀ :: (d' ++ '.' :: (f ++ str " الى حساب")))
    ([d₀ :: d'] ++ [([] : Str)], (d₀ :: d') ++ [],
      '.' :: (f ++ str " الى حساب")) [] tl45 h3 h45
  have hstar1 := starG_space_cons d₀ (d' ++ '.' :: (f ++ str " الى حساب")) hrx
  obtain ⟨tl2345, h2345⟩ := pseq_head (starG rxSpace)
    (pseq (popt1 (pseq (pgroup (curCore plit)) (starG rxSpace)))
      (pseq (pgroup (plusG digComma))
        (popt1 (pseq (starG rxSpace) (pgroup (curCore plit)))))) _
    ([], [' '], d₀ :: (d' ++ '.' :: (f ++ str " الى حساب")))
    ([([] : Str)] ++ ([d₀ :: d'] ++ [([] : Str)]),
      [] ++ ((d₀ :: d') ++ []), '.' :: (f ++ str " الى حساب"))
    [([], [], ' ' :: d₀ :: (d' ++ '.' :: (f ++ str " الى حساب")))] tl345 hstar1 h345
  have hplit : plit (str "مبلغ")
      ('م' :: 'ب' :: 'ل' :: 'غ' :: ' ' :: d₀ :: (d' ++ '.' :: (f ++ str " الى حساب"))) =
      [([], str "مبلغ", ' ' :: d₀ :: (d' ++ '.' :: (f ++ str " الى حساب")))] := rfl
  obtain ⟨tlx, hpat⟩ := pseq_head (plit (str "مبلغ"))
    (pseq (starG rxSpace)
      (pseq (popt1 (pseq (pgroup (curCore plit)) (starG rxSpace)))
        (pseq (pgroup (plusG digComma))
          (popt1 (pseq (starG rxSpace) (pgroup (curCore plit))))))) _
    ([], str "مبلغ", ' ' :: d₀ :: (d' ++ '.' :: (f ++ str " الى حساب")))
    ([] ++ ([([] : Str)] ++ ([d₀ :: d'] ++ [([] : Str)])),
      [' '] ++ ([] ++ ((d₀ :: d') ++ [])), '.' :: (f ++ str " الى حساب"))
    [] tl2345 hplit h2345
  have hpfind : pfind bmTransferPat (bmTmpl (d₀ :: d') f) =
      some [([] : Str), d₀ :: d', ([] : Str)] := by
    have htm : bmTmpl (d₀ :: d') f =
        'ت' :: 'م' :: ' ' :: 'ا' :: 'ض' :: 'ا' :: 'ف' :: 'ة' :: ' ' ::
        'م' :: 'ب' :: 'ل' :: 'غ' :: ' ' :: d₀ ::
          (d' ++ '.' :: (f ++ str " الى حساب")) := rfl
    rw [htm]
    rw [pfind_cons_none _ _ _ rfl, pfind_cons_none _ _ _ rfl,
      pfind_cons_none _ _ _ rfl, pfind_cons_none _ _ _ rfl,
      pfind_cons_none _ _ _ rfl, pfind_cons_none _ _ _ rfl,
      pfind_cons_none _ _ _ rfl, pfind_cons_none _ _ _ rfl,
      pfind_cons_none _ _ _ rfl]
    exact pfind_cons_some _ _ _ _ _ hpat
  unfold bmTransferFind
  rw [hpfind]

theorem breakDot_digits (l : Str) (h : ∀ c ∈ l, isDigitCh c = true) :
    parseDec.breakDot l = (l, none) := by
  induction l with
  | nil => rfl
  | cons c r ih =>
    rw [parseDec.breakDot,
      if_neg (class_ne isDigitCh c '.' (h c (List.mem_cons_self _ _)) (by decide)),
      ih (fun y hy => h y (List.mem_cons_of_mem _ hy))]

theorem parseDec_digits (l : Str) (hne : ¬ l = []) (h : ∀ c ∈ l, isDigitCh c = true) :
    parseDec l = ((100 * natOfDigits l : ℕ) : Int) := by
  unfold parseDec
  rw [breakDot_digits l h]
  have hall : allDigits l = true := List.all_eq_true.mpr (fun c hc => h c hc)
  exact if_pos ⟨hne, hall⟩

theorem stripCommas_digits (d : Str) (hd : ∀ c ∈ d, digComma c = true) :
    ∀ c ∈ stripCommas d, isDigitCh c = true := by
  intro c hc
  unfold stripCommas at hc
  rw [List.mem_filter] at hc
  have h1 := hd c hc.1
  have h2 := hc.2
  rw [Bool.not_eq_true'] at h2
  unfold digComma at h1
  cases hdig : isDigitCh c with
  | true => rfl
  | false =>
    rw [hdig, Bool.false_or] at h1
    rw [h1] at h2
    cases h2

/-- C10: for every Banque Misr body built from the addition marker and an
amount token `d.f` — `d` a digits-and-commas run, `f` a digit run — the
body contains the transfer/addition marker, yet the parsed transaction's
amount is the integer part alone, `natOfDigits (stripCommas d)` pounds
(`100 ·` in hundredths), for every fraction `f`: the amount group matches
digits and grouping commas but not the decimal point, so the fractional
digits are silently dropped. -/
theorem bmTransfer_truncates (tx0 : Transaction) (d f : Str)
    (hd : ∀ c ∈ d, digComma c = true) (hf : ∀ c ∈ f, isDigitCh c = true)
    (hne : ¬ stripCommas d = []) :
    containsStr (bmTmpl d f) (str "تم اضافة مبلغ") = true ∧
    (parseBanqueMisrMessage tx0 (bmTmpl d f)).Amount =
      ((100 * natOfDigits (stripCommas d) : ℕ) : Int) ∧
    (parseBanqueMisrMessage tx0 (bmTmpl d f)).Type' = TypeIncome ∧
    (parseBanqueMisrMessage tx0 (bmTmpl d f)).Payee = str "Transfer In" := by
  have hdne : ¬ d = [] := fun he => hne (by rw [he]; rfl)
  have hx := bmTransferFind_tmpl d f hdne hd
  have k1 : containsStr (bmTmpl d f) (str "OTP") = false :=
    containsStr_eq_false_of_needle_char _ _ 'O' (by decide)
      (tmpl_no_char d f hd hf 'O' (by decide) (by decide))
  have k2 : containsStr (bmTmpl d f) (str "password") = false :=
    containsStr_eq_false_of_needle_char _ _ 'p' (by decide)
      (tmpl_no_char d f hd hf 'p' (by decide) (by decide))
  have k3 : containsStr (bmTmpl d f) (str "تسجيل الدخول") = false :=
    containsStr_eq_false_of_needle_char _ _ 'ج' (by decide)
      (tmpl_no_char d f hd hf 'ج' (by decide) (by decide))
  have k4 : containsStr (bmTmpl d f) (str "code") = false :=
    containsStr_eq_false_of_needle_char _ _ 'o' (by decide)
      (tmpl_no_char d f hd hf 'o' (by decide) (by decide))
  have hskip : Contains (bmTmpl d f) bmSkipWords = false := by
    unfold Contains bmSkipWords
    simp only [List.any_cons, List.any_nil, k1, k2, k3, k4]
    rfl
  have hadd : containsStr (bmTmpl d f) (str "تم اضافة مبلغ") = true :=
    containsStr_of_hasPre _ _ rfl
  have hmon : containsStr (bmTmpl d f) (str "من حساب") = false :=
    containsStr_eq_false_of_needle_char _ _ 'ن' (by decide)
      (tmpl_no_char d f hd hf 'ن' (by decide) (by decide))
  have hila : containsStr (bmTmpl d f) (str "الى حساب") = true := by
    show containsStr ((str "تم اضافة مبلغ " ++ d) ++
      (['.'] ++ (f ++ ([' '] ++ str "الى حساب")))) (str "الى حساب") = true
    apply containsStr_suffix
    apply containsStr_suffix
    apply containsStr_suffix
    apply containsStr_suffix
    exact containsStr_of_hasPre _ _ rfl
  refine ⟨hadd, ?_⟩
  unfold parseBanqueMisrMessage
  dsimp only
  rw [hskip]
  rw [if_neg (by decide : ¬ (false = true))]
  rw [hadd, Bool.or_true]
  rw [if_pos rfl]
  unfold parseTransfer
  rw [hx]
  dsimp only
  rw [hmon]
  rw [if_neg (by decide : ¬ (false = true))]
  rw [hila]
  rw [if_pos rfl]
  refine ⟨?_, rfl, rfl⟩
  show parseDec (stripCommas d) = _
  exact parseDec_digits _ hne (stripCommas_digits d hd)

theorem bmTransfer_truncates_witness :
    ((∀ c ∈ str "1,234", digComma c = true) ∧
      (∀ c ∈ str "56", isDigitCh c = true) ∧
      ¬ stripCommas (str "1,234") = []) ∧
    containsStr (bmTmpl (str "1,234") (str "56")) (str "تم اضافة مبلغ") = true ∧
    (parseBanqueMisrMessage txW (bmTmpl (str "1,234") (str "56"))).Amount =
      (123400 : Int) ∧
    (parseBanqueMisrMessage txW (bmTmpl (str "1,234") (str "56"))).Type' =
      TypeIncome := by
  have h1 : ∀ c ∈ str "1,234", digComma c = true := by decide
  have h2 : ∀ c ∈ str "56", isDigitCh c = true := by decide
  have h3 : ¬ stripCommas (str "1,234") = [] := by decide
  have h := bmTransfer_truncates txW (str "1,234") (str "56") h1 h2 h3
  exact ⟨⟨h1, h2, h3⟩, h.1, h.2.1.trans (by decide), h.2.2.1⟩

end WalletBackup
